import Mathlib

/-!
# goLogs / mylogger: the file logger (`mylogger/file.go`)

A shallow embedding of `FileLogger`: the level gate and the bounded channel on
the producer side (`log`), and one iteration of the background writer
(`writeLogBackground`) with its size check and file rotation (`checkSize`,
`splitFile`), over an explicit model of the disk.

Modelling conventions.

* The operating system is an explicit `Disk` (path to content).  The results
  of the system calls the code branches on or that decide a rotation
  (`Stat`, `Rename`, `OpenFile`) are inputs of each step; a write to an open
  file appends in full (the code discards the result of `fmt.Fprintf`).
* A path is a directory together with a name relative to it, which may have
  directory parts of its own: `path.Join(dir, name)` denotes that pair, and
  `FileInfo.Name()` is the base name, the part of the name after its last
  slash.  Two names are two files: the model does not follow `path.Clean` in
  reading `./app.log` or `sub/../app.log` as `app.log`.
* The wall clock (`time.Now()`), the caller information (`getInfo(3)`) and the
  rendered message (`fmt.Sprintf(format, a...)`) are inputs of `log`.
* The goroutine running `writeLogBackground` is the flag `alive`; one call of
  `writeLogBackground` below is one iteration of its `for` loop.
-/

namespace mylogger

/-! ## Levels -/

/-- Modelled from the spec: the `LogLevel` type and its constants are declared
outside `file.go`; the spec (section 4.5) gives an ordered enumeration
`DEBUG < INFO < WARNING < ERROR < FATAL` compared as integers. -/
inductive LogLevel
  | DEBUG
  | INFO
  | WARNING
  | ERROR
  | FATAL
  deriving DecidableEq, Repr

/-- Modelled from the spec: the integer behind a level; only the order of the
five values is used. -/
def LogLevel.toNat : LogLevel → Nat
  | .DEBUG => 1
  | .INFO => 2
  | .WARNING => 3
  | .ERROR => 4
  | .FATAL => 5

instance : LE LogLevel := ⟨fun a b => a.toNat ≤ b.toNat⟩

instance : LT LogLevel := ⟨fun a b => a.toNat < b.toNat⟩

instance (a b : LogLevel) : Decidable (a ≤ b) := inferInstanceAs (Decidable (a.toNat ≤ b.toNat))

instance (a b : LogLevel) : Decidable (a < b) := inferInstanceAs (Decidable (a.toNat < b.toNat))

/-- Modelled from the spec: `getLogString` lives outside `file.go`; it gives
the name of a level as it appears in a log line (`[LEVEL]`). -/
def getLogString : LogLevel → String
  | .DEBUG => "DEBUG"
  | .INFO => "INFO"
  | .WARNING => "WARNING"
  | .ERROR => "ERROR"
  | .FATAL => "FATAL"

/-- Modelled from the spec: `parseLogLevel` lives outside `file.go`; it maps a
configuration string to a level and fails on an unrecognised name
(section 6, collaborator (a)). -/
def parseLogLevel (s : String) : Except String LogLevel :=
  if s = "DEBUG" then .ok .DEBUG
  else if s = "INFO" then .ok .INFO
  else if s = "WARNING" then .ok .WARNING
  else if s = "ERROR" then .ok .ERROR
  else if s = "FATAL" then .ok .FATAL
  else .error "invalid log level"

/-! ## Wall-clock time and the two layouts of `time.Time.Format` -/

/-- A reading of `time.Now()`, broken into calendar fields. -/
structure Time where
  year : Nat
  month : Nat
  day : Nat
  hour : Nat
  minute : Nat
  second : Nat
  nanosecond : Nat
  deriving DecidableEq, Repr

/-- Go's `appendInt(b, x, width)` for a non-negative `x`: decimal digits,
zero-padded on the left to at least `width`. -/
def appendInt (x width : Nat) : String :=
  String.mk (List.replicate (width - (Nat.repr x).length) '0') ++ Nat.repr x

/-- The millisecond component of a time. -/
def Time.millisecond (t : Time) : Nat := t.nanosecond / 1000000 % 1000

/-- The value of `now.Format("2006-01-02 15:04:05")` (line 174). -/
def formatTimestamp (t : Time) : String :=
  appendInt t.year 4 ++ "-" ++ appendInt t.month 2 ++ "-" ++ appendInt t.day 2 ++ " " ++
    appendInt t.hour 2 ++ ":" ++ appendInt t.minute 2 ++ ":" ++ appendInt t.second 2

/-- The value of `time.Now().Format("20060102150405000")` (line 104).  The
layout is read as `2006` `01` `02` `15` `04` `05` followed by the three
characters `000`: a fractional-second field of a Go layout starts with a dot
or a comma, so without one the zeros are literal text. -/
def formatStamp (t : Time) : String :=
  appendInt t.year 4 ++ appendInt t.month 2 ++ appendInt t.day 2 ++
    appendInt t.hour 2 ++ appendInt t.minute 2 ++ appendInt t.second 2 ++ "000"

/-! ## `fmt.Fprintf(w, format)` with no operands

Lines 141 and 152 pass the finished line as the *format* of `fmt.Fprintf`,
with no operand.  The functions below follow `doPrintf` of package `fmt` for
an empty operand list. -/

/-- The flag characters `doPrintf` skips after a percent sign. -/
def isFlag (c : Char) : Bool :=
  c == '#' || c == '0' || c == '+' || c == '-' || c == ' '

/-- The overflow test of `parsenum` in package `fmt`. -/
def tooLarge (x : Nat) : Bool := decide (1000000 < x)

/-- The loop of `parsenum` in package `fmt` on the text up to its end bound:
reads decimal digits; the result is whether a number was read and the text
left.  On overflow the position jumps to the end bound. -/
def parsenum : Nat → Bool → List Char → Bool × List Char
  | _, isnum, [] => (isnum, [])
  | num, isnum, c :: cs =>
    if c.isDigit then
      if tooLarge num then (false, [])
      else parsenum (num * 10 + (c.toNat - 48)) true cs
    else (isnum, c :: cs)

/-- The function `parseArgNumber` of package `fmt` on text starting with an
opening bracket: the width of the bracketed index and whether it is a
number. -/
def parseArgNumber (cs : List Char) : Nat × Bool :=
  if cs.length < 3 then (1, false)
  else
    let body := cs.tail.takeWhile (fun c => c != ']')
    if body.length = cs.tail.length then (1, false)
    else
      let r := parsenum 0 false body
      (body.length + 2, r.1 && r.2.isEmpty)

/-- The method `argNumber` of package `fmt` with no operands: text left, whether
an index was found, and the `goodArgNum` flag (any index is out of range). -/
def argNumber (cs : List Char) (good : Bool) : List Char × Bool × Bool :=
  match cs with
  | '[' :: _ =>
    let r := parseArgNumber cs
    (cs.drop r.1, r.2, false)
  | _ => (cs, false, good)

/-- The width stage of one verb: output, text left, `afterIndex`,
`goodArgNum`. -/
def widthStage (cs : List Char) (afterIndex good : Bool) :
    List Char × List Char × Bool × Bool :=
  match cs with
  | '*' :: t => ("%!(BADWIDTH)".data, t, false, good)
  | _ =>
    let r := parsenum 0 false cs
    ([], r.2, afterIndex, good && !(afterIndex && r.1))

/-- The precision stage of one verb: output, text left, `afterIndex`,
`goodArgNum`. -/
def precStage (cs : List Char) (afterIndex good : Bool) :
    List Char × List Char × Bool × Bool :=
  match cs with
  | '.' :: t =>
    let a := argNumber t (good && !afterIndex)
    match a.1 with
    | '*' :: t2 => ("%!(BADPREC)".data, t2, false, a.2.2)
    | _ =>
      let r := parsenum 0 false a.1
      ([], r.2, a.2.1, a.2.2)
  | _ => ([], cs, afterIndex, good)

/-- The last stage of one verb: the verb character itself. -/
def verbStage (cs : List Char) (good : Bool) : List Char × List Char :=
  match cs with
  | [] => ("%!(NOVERB)".data, [])
  | v :: rest =>
    if v == '%' then (['%'], rest)
    else if !good then ("%!".data ++ [v] ++ "(BADINDEX)".data, rest)
    else ("%!".data ++ [v] ++ "(MISSING)".data, rest)

/-- What `doPrintf` does with the text after one percent sign when there is no
operand: the output and the text left. -/
def doVerb (cs : List Char) : List Char × List Char :=
  let a := argNumber (cs.dropWhile isFlag) true
  let w := widthStage a.1 a.2.1 a.2.2
  let p := precStage w.2.1 w.2.2.1 w.2.2.2
  let b := if p.2.2.1 then (p.2.1, p.2.2.1, p.2.2.2) else argNumber p.2.1 p.2.2.2
  let v := verbStage b.1 b.2.2
  (w.1 ++ p.1 ++ v.1, v.2)

/-- The format loop of `doPrintf` with no operand: literal text is copied up to
the next percent sign, then one verb is processed.  Every round consumes at
least the percent sign, so a budget of one round per character is enough. -/
def doPrintf : Nat → List Char → List Char
  | 0, _ => []
  | fuel + 1, cs =>
    let lit := cs.takeWhile (fun c => c != '%')
    match cs.dropWhile (fun c => c != '%') with
    | [] => lit
    | _ :: rest =>
      let v := doVerb rest
      lit ++ v.1 ++ doPrintf fuel v.2

/-- The text `fmt.Fprintf(w, format)` writes when called with no operand. -/
def Fprintf0 (format : String) : String :=
  String.mk (doPrintf (format.length + 1) format.data)

/-! ## Files and the disk -/

/-- A file path: a directory and a name relative to it (`sub/app.log` is a
name with a directory part).  `path.Join(dir, name)` is the pair. -/
structure Path where
  dir : String
  name : String
  deriving DecidableEq

/-- The base name of a file name, as `FileInfo.Name()` reports it: the part
after the last slash, the whole name when it has no slash. -/
def baseName (s : String) : String :=
  String.mk (s.data.reverse.takeWhile (fun c => c != '/')).reverse

/-- The disk: the content of the file at each path, `none` where no file
exists. -/
abbrev Disk := Path → Option String

/-- The disk with the entry at one path replaced. -/
def Disk.set (d : Disk) (p : Path) (c : Option String) : Disk :=
  fun q => if q = p then c else d q

/-- An open `*os.File`: the path it was opened under.  The logger closes a
file before it renames it, so an open file is the file at its path. -/
structure File where
  path : Path
  deriving DecidableEq

/-- The two fields of `os.FileInfo` the code reads. -/
structure FileInfo where
  Name : String
  Size : Int

/-- The call `file.Stat()`: fails on a nil file or when the system call fails;
the name is the base name of the name the file was opened under, the size is
the length of the content in bytes. -/
def Stat (ok : Bool) (d : Disk) (file : Option File) : Option FileInfo :=
  match file with
  | none => none
  | some f =>
    if ok then some ⟨baseName f.path.name, (((d f.path).getD "").utf8ByteSize : Nat)⟩
    else none

/-- The call `os.Rename(old, new)`: the new disk and whether the call
succeeded.  It succeeds when the system lets it and the old path has a file;
the file then moves to the new path, replacing a file already there. -/
def Rename (ok : Bool) (d : Disk) (old new : Path) : Disk × Bool :=
  match ok, d old with
  | true, some c => (if old = new then d else (d.set new (some c)).set old none, true)
  | _, _ => (d, false)

/-- The call `os.OpenFile(p, O_CREATE|O_APPEND|O_WRONLY, 0644)`: when it
succeeds the file exists afterwards (empty if it was created). -/
def OpenFile (ok : Bool) (d : Disk) (p : Path) : Disk × Option File :=
  if ok then (if (d p).isSome then d else d.set p (some ""), some ⟨p⟩) else (d, none)

/-- The call `fmt.Fprintf(file, format)` of lines 141 and 152: appends the
rendering of the format to the file. -/
def Fprintf (d : Disk) (file : Option File) (format : String) : Disk :=
  match file with
  | none => d
  | some f =>
    match d f.path with
    | some c => d.set f.path (some (c ++ Fprintf0 format))
    | none => d

/-! ## The logger -/

/-- The record sent through the channel (`logMsg`, lines 29-36). -/
structure logMsg where
  level : LogLevel
  msg : String
  funcName : String
  fileName : String
  timestamp : String
  line : Int
  deriving DecidableEq

/-- A buffered Go channel of records: the buffer, oldest first, and the
capacity given to `make`. -/
structure Chan where
  buf : List logMsg
  cap : Nat

/-- The statement `select { case c <- m: default: }`: the record goes to the
back of the buffer when there is room and is dropped otherwise.  (The only
receiver never blocks, so a send succeeds exactly when the buffer has room.) -/
def Chan.trySend (c : Chan) (m : logMsg) : Chan :=
  if c.buf.length < c.cap then { c with buf := c.buf ++ [m] } else c

/-- The struct `FileLogger` (lines 18-26). -/
structure FileLogger where
  level : LogLevel
  filePath : String
  fileName : String
  fileObj : Option File
  errFileObj : Option File
  maxFileSize : Int
  logChan : Chan

/-- A logger together with the disk and the state of its background
goroutine. -/
structure World where
  fl : FileLogger
  disk : Disk
  alive : Bool

/-- The value the package variable `MaxSize` starts with (line 14).  It is an
exported variable, so `NewFileLogger` takes its current value as an input. -/
def initialMaxSize : Nat := 50000

/-- Results of the two `os.OpenFile` calls of `initFile`. -/
structure OpenEnv where
  mainOpenOk : Bool
  errOpenOk : Bool

/-- The method `initFile` (lines 56-83): opens both files, stores the handles
and starts the background goroutine; returns an error as soon as one open
fails. -/
def initFile (e : OpenEnv) (w : World) : World × Except String Unit :=
  let fullFileName : Path := ⟨w.fl.filePath, w.fl.fileName⟩
  match OpenFile e.mainOpenOk w.disk fullFileName with
  | (d1, none) => ({ w with disk := d1 }, .error "open log file failed")
  | (d1, some fileObje) =>
    match OpenFile e.errOpenOk d1 ⟨w.fl.filePath, w.fl.fileName ++ ".err"⟩ with
    | (d2, none) => ({ w with disk := d2 }, .error "open err log file failed")
    | (d2, some errfileObje) =>
      ({ fl := { w.fl with fileObj := some fileObje, errFileObj := some errfileObje },
         disk := d2, alive := true }, .ok ())

/-- The constructor `NewFileLogger` (lines 39-53): panics (here: `error`) on an
unknown level name; otherwise builds the logger, calls `initFile`, drops its
result and returns the logger.  `MaxSize` is the value of the package variable
of that name when the call is made. -/
def NewFileLogger (MaxSize : Nat) (e : OpenEnv) (d : Disk) (levelStr fp fn : String)
    (maxSize : Int) : Except String World :=
  match parseLogLevel levelStr with
  | .error err => .error err
  | .ok logLevel =>
    let fl : FileLogger :=
      { level := logLevel, filePath := fp, fileName := fn, fileObj := none,
        errFileObj := none, maxFileSize := maxSize, logChan := ⟨[], MaxSize⟩ }
    .ok (initFile e ⟨fl, d, false⟩).1

/-- The method `enable` (lines 86-88). -/
def enable (f : FileLogger) (logLevel : LogLevel) : Bool :=
  decide (f.level ≤ logLevel)

/-- The result of `getInfo(3)`: the caller of the logging method. -/
structure CallSite where
  funcName : String
  fileName : String
  lineNo : Int

/-- The method `log` (lines 162-183).  `msg` is the value of
`fmt.Sprintf(format, a...)`, `now` the reading of `time.Now()` and `c` the
result of `getInfo(3)`. -/
def log (w : World) (lv : LogLevel) (msg : String) (now : Time) (c : CallSite) : World :=
  if enable w.fl lv then
    let logtTmp : logMsg :=
      { level := lv, msg := msg, funcName := c.funcName, fileName := c.fileName,
        timestamp := formatTimestamp now, line := c.lineNo }
    { w with fl := { w.fl with logChan := w.fl.logChan.trySend logtTmp } }
  else w

/-- The method `Debug` (lines 186-188). -/
def Debug (w : World) (msg : String) (now : Time) (c : CallSite) : World :=
  log w .DEBUG msg now c

/-- The method `Info` (lines 191-193). -/
def Info (w : World) (msg : String) (now : Time) (c : CallSite) : World :=
  log w .INFO msg now c

/-- The method `Warning` (lines 196-198). -/
def Warning (w : World) (msg : String) (now : Time) (c : CallSite) : World :=
  log w .WARNING msg now c

/-- The method `Error` (lines 201-203). -/
def Error (w : World) (msg : String) (now : Time) (c : CallSite) : World :=
  log w .ERROR msg now c

/-- The method `Fatal` (lines 206-208). -/
def Fatal (w : World) (msg : String) (now : Time) (c : CallSite) : World :=
  log w .FATAL msg now c

/-- The method `checkSize` (lines 91-99). -/
def checkSize (f : FileLogger) (statOk : Bool) (d : Disk) (file : Option File) : Bool :=
  match Stat statOk d file with
  | none => false
  | some fileInfo => decide (fileInfo.Size ≥ f.maxFileSize)

/-- What the environment gives one call of `splitFile`: the clock and the
results of its three system calls. -/
structure SplitEnv where
  now : Time
  statOk : Bool
  renameOk : Bool
  openOk : Bool

/-- The name `newLogName` of line 111 for a file called `name`. -/
def newLogName (f : FileLogger) (name : String) (now : Time) : Path :=
  ⟨f.filePath, name ++ ".bak" ++ formatStamp now⟩

/-- The method `splitFile` (lines 102-124): the new disk and the new handle,
`none` for the error return.  `logName` is built from the directory of the
logger and the base name `Stat` reports (line 110).  The result of
`os.Rename` is not looked at. -/
def splitFile (f : FileLogger) (e : SplitEnv) (d : Disk) (file : Option File) :
    Disk × Option File :=
  match Stat e.statOk d file with
  | none => (d, none)
  | some fileInfo =>
    let logName : Path := ⟨f.filePath, fileInfo.Name⟩
    let d1 := (Rename e.renameOk d logName (newLogName f fileInfo.Name e.now)).1
    OpenFile e.openOk d1 logName

/-- Whether the `os.Rename` of a call of `splitFile` succeeds (the code does
not look; this is for stating what a rotation without failure does). -/
def renameSucceeds (f : FileLogger) (e : SplitEnv) (d : Disk) (file : Option File) : Bool :=
  match Stat e.statOk d file with
  | none => false
  | some fileInfo =>
    (Rename e.renameOk d ⟨f.filePath, fileInfo.Name⟩ (newLogName f fileInfo.Name e.now)).2

/-- The block `if f.checkSize(file) { ... }` that `writeLogBackground` runs for
the main file (lines 129-136) and for the error file (lines 143-150): the
disk, the handle to go on with (`none` when the goroutine returns), whether
`splitFile` was called, and whether a call of it failed (in its stat, its
rename or its reopen). -/
def rotateIfNeeded (f : FileLogger) (statOk : Bool) (e : SplitEnv) (d : Disk)
    (file : Option File) : Disk × Option (Option File) × Bool × Bool :=
  if checkSize f statOk d file then
    match splitFile f e d file with
    | (d1, none) => (d1, none, true, true)
    | (d1, some newFile) => (d1, some (some newFile), true, !renameSucceeds f e d file)
  else (d, some file, false, false)

/-- The text `logInfo` of line 140. -/
def logInfo (logTmp : logMsg) : String :=
  "[" ++ logTmp.timestamp ++ "] [" ++ getLogString logTmp.level ++ "] [" ++
    logTmp.funcName ++ ":" ++ logTmp.fileName ++ ":" ++ toString logTmp.line ++ "]" ++
    logTmp.msg ++ "\n"

/-- What the environment gives one iteration of the background loop. -/
structure IterEnv where
  mainStatOk : Bool
  mainSplit : SplitEnv
  errStatOk : Bool
  errSplit : SplitEnv

/-- What one iteration did: whether `splitFile` was called on the main and on
the error file, the record it took from the channel, and whether the rotation
of the main and of the error file failed. -/
structure Events where
  mainSplit : Bool
  errSplit : Bool
  popped : Option logMsg
  mainFailed : Bool
  errFailed : Bool

/-- One iteration of the loop of `writeLogBackground` (lines 128-158), run by
the background goroutine while it is alive. -/
def writeLogBackground (e : IterEnv) (w : World) : World × Events :=
  if w.alive then
    let m := rotateIfNeeded w.fl e.mainStatOk e.mainSplit w.disk w.fl.fileObj
    match m.2.1 with
    | none =>
      ({ w with disk := m.1, alive := false }, ⟨m.2.2.1, false, none, m.2.2.2, false⟩)
    | some fileObj =>
      match w.fl.logChan.buf with
      | [] =>
        ({ w with disk := m.1, fl := { w.fl with fileObj := fileObj } },
          ⟨m.2.2.1, false, none, m.2.2.2, false⟩)
      | logTmp :: rest =>
        let d2 := Fprintf m.1 fileObj (logInfo logTmp)
        let fl2 : FileLogger :=
          { w.fl with fileObj := fileObj, logChan := { w.fl.logChan with buf := rest } }
        if LogLevel.ERROR ≤ logTmp.level then
          let x := rotateIfNeeded w.fl e.errStatOk e.errSplit d2 w.fl.errFileObj
          match x.2.1 with
          | none =>
            ({ fl := fl2, disk := x.1, alive := false },
              ⟨m.2.2.1, x.2.2.1, some logTmp, m.2.2.2, x.2.2.2⟩)
          | some errFileObj =>
            ({ fl := { fl2 with errFileObj := errFileObj },
               disk := Fprintf x.1 errFileObj (logInfo logTmp), alive := true },
             ⟨m.2.2.1, x.2.2.1, some logTmp, m.2.2.2, x.2.2.2⟩)
        else ({ fl := fl2, disk := d2, alive := true },
          ⟨m.2.2.1, false, some logTmp, m.2.2.2, false⟩)
  else (w, ⟨false, false, none, false, false⟩)

/-- Several iterations of the background loop, one environment each. -/
def drain : List IterEnv → World → World
  | [], w => w
  | e :: es, w => drain es (writeLogBackground e w).1

/-! ## Vocabulary of the properties -/

/-- The path of the main log file of a logger (`fullFileName`, line 58). -/
def mainPath (f : FileLogger) : Path := ⟨f.filePath, f.fileName⟩

/-- The path of the error log file of a logger (line 66). -/
def errPath (f : FileLogger) : Path := ⟨f.filePath, f.fileName ++ ".err"⟩

/-- The file the main handle `fileObj` is open on: the file the background
loop writes every line to. -/
def mainSink (w : World) : Path :=
  match w.fl.fileObj with
  | some f => f.path
  | none => mainPath w.fl

/-- The file the error handle `errFileObj` is open on. -/
def errSink (w : World) : Path :=
  match w.fl.errFileObj with
  | some f => f.path
  | none => errPath w.fl

/-- The content of the file at a path, empty where there is no file. -/
def content (d : Disk) (p : Path) : String := (d p).getD ""

/-- The size in bytes of the file at a path, as `FileInfo.Size()` reports it. -/
def fileSize (d : Disk) (p : Path) : Int := ((content d p).utf8ByteSize : Nat)

/-- The states a program can bring a logger to: it is built by `NewFileLogger`,
then logging calls and iterations of the background loop follow in any
order. -/
inductive Reachable : World → Prop
  | init (MaxSize : Nat) (e : OpenEnv) (d : Disk) (levelStr fp fn : String) (maxSize : Int)
      (w : World) : NewFileLogger MaxSize e d levelStr fp fn maxSize = .ok w → Reachable w
  | log (w : World) (lv : LogLevel) (msg : String) (now : Time) (c : CallSite) :
      Reachable w → Reachable (log w lv msg now c)
  | step (e : IterEnv) (w : World) : Reachable w → Reachable (writeLogBackground e w).1

/-- A plain file name: one without a directory part. -/
def PlainName (s : String) : Prop := '/' ∉ s.data

instance (s : String) : Decidable (PlainName s) := by
  unfold PlainName; infer_instance

/-- The name a handle is open under after the rotation block: the base name
of the old one if `splitFile` was called (line 110), the old one if not. -/
def nextName (called : Bool) (n : String) : String := if called then baseName n else n

/-- Where the two handles of a running logger are.  The main handle is open on
the configured file or, once a rotation has reopened it, on the file of that
base name in the logger's directory, and so for the error handle; both files
exist; and a configured file that a handle has left has reached the maximum
size. -/
def SinksOpen (w : World) (nM nE : String) : Prop :=
  w.fl.fileObj = some ⟨⟨w.fl.filePath, nM⟩⟩ ∧ w.fl.errFileObj = some ⟨⟨w.fl.filePath, nE⟩⟩ ∧
    (nM = w.fl.fileName ∨ nM = baseName w.fl.fileName) ∧
    (nE = w.fl.fileName ++ ".err" ∨ nE = baseName w.fl.fileName ++ ".err") ∧
    (w.disk ⟨w.fl.filePath, nM⟩).isSome = true ∧ (w.disk ⟨w.fl.filePath, nE⟩).isSome = true ∧
    (nM ≠ w.fl.fileName → w.fl.maxFileSize ≤ fileSize w.disk (mainPath w.fl)) ∧
    (nE ≠ w.fl.fileName ++ ".err" → w.fl.maxFileSize ≤ fileSize w.disk (errPath w.fl))

/-- Both handles are open on the configured files and both files exist. -/
def Opened (w : World) : Prop :=
  w.fl.fileObj = some ⟨mainPath w.fl⟩ ∧ w.fl.errFileObj = some ⟨errPath w.fl⟩ ∧
    (w.disk (mainPath w.fl)).isSome = true ∧ (w.disk (errPath w.fl)).isSome = true

/-- The three system calls of a call of `splitFile` are let through. -/
def SplitEnv.allOk (e : SplitEnv) : Prop :=
  e.statOk = true ∧ e.renameOk = true ∧ e.openOk = true

instance (e : SplitEnv) : Decidable e.allOk := by
  unfold SplitEnv.allOk; infer_instance

/-- No rotation fails in the iteration: every call of `splitFile` it makes
gets through its stat, its rename and its reopen. -/
def NoRotationFails (e : IterEnv) (w : World) : Prop :=
  (writeLogBackground e w).2.mainFailed = false ∧ (writeLogBackground e w).2.errFailed = false

instance (e : IterEnv) (w : World) : Decidable (NoRotationFails e w) := by
  unfold NoRotationFails; infer_instance

/-- No rotation fails in any iteration of a run. -/
def RunOk : List IterEnv → World → Prop
  | [], _ => True
  | e :: es, w => NoRotationFails e w ∧ RunOk es (writeLogBackground e w).1

/-- Whether a rotation fails in a run can be computed. -/
def RunOk.decide : (es : List IterEnv) → (w : World) → Decidable (RunOk es w)
  | [], _ => isTrue trivial
  | e :: es, w =>
    match (inferInstance : Decidable (NoRotationFails e w)),
      RunOk.decide es (writeLogBackground e w).1 with
    | isTrue h1, isTrue h2 => isTrue ⟨h1, h2⟩
    | isFalse h1, _ => isFalse fun h => h1 h.1
    | _, isFalse h2 => isFalse fun h => h2 h.2

instance (es : List IterEnv) (w : World) : Decidable (RunOk es w) := RunOk.decide es w

/-- The backup names given by the rotations of the main file in a run, in the
order of the rotations: each is built from the base name of the file the main
handle is open on (lines 110-111). -/
def mainBackups : List IterEnv → World → List Path
  | [], _ => []
  | e :: es, w =>
    (if (writeLogBackground e w).2.mainSplit then
        [newLogName w.fl (baseName (mainSink w).name) e.mainSplit.now] else []) ++
      mainBackups es (writeLogBackground e w).1

/-- The contents of a list of files, one after the other. -/
def readAll (d : Disk) : List Path → String
  | [] => ""
  | p :: ps => content d p ++ readAll d ps

/-- A list of pieces of text, one after the other. -/
def concat : List String → String
  | [] => ""
  | s :: ss => s ++ concat ss

/-- One logging call: level, rendered message, clock reading, call site. -/
structure Call where
  lv : LogLevel
  msg : String
  now : Time
  site : CallSite

/-- The record `log` builds for a call (lines 169-176). -/
def Call.record (c : Call) : logMsg :=
  { level := c.lv, msg := c.msg, funcName := c.site.funcName, fileName := c.site.fileName,
    timestamp := formatTimestamp c.now, line := c.site.lineNo }

/-- A sequence of logging calls, first to last. -/
def logAll : List Call → World → World
  | [], w => w
  | c :: cs, w => logAll cs (log w c.lv c.msg c.now c.site)

/-- The line as the specification words it (section 6): the caller block, one
space, the message, a newline. -/
def specLine (r : logMsg) : String :=
  "[" ++ r.timestamp ++ "] [" ++ getLogString r.level ++ "] [" ++ r.funcName ++ ":" ++
    r.fileName ++ ":" ++ toString r.line ++ "] " ++ r.msg ++ "\n"

/-! ## Concrete inputs -/

/-- A disk with no file on it. -/
def exDisk : Disk := fun _ => none

/-- A call site as `getInfo(3)` reports one: function, file, line. -/
def exSite : CallSite := ⟨"main", "main.go", 12⟩

/-- A call site with longer names. -/
def exLongSite : CallSite := ⟨"handleRequest", "server.go", 120⟩

/-- The clock at 2021-01-18 20:23:05.100. -/
def exTime : Time := ⟨2021, 1, 18, 20, 23, 5, 100000000⟩

/-- The clock 800 milliseconds later, in the same second. -/
def exTimeLater : Time := ⟨2021, 1, 18, 20, 23, 5, 900000000⟩

/-- The clock 400 microseconds after `exTime`, in the same millisecond. -/
def exTimeSoon : Time := ⟨2021, 1, 18, 20, 23, 5, 100400000⟩

/-- The clock one second after 20:23:05. -/
def exTimeNext : Time := ⟨2021, 1, 18, 20, 23, 6, 0⟩

/-- An environment in which every system call of `splitFile` succeeds. -/
def okSplit (t : Time) : SplitEnv := ⟨t, true, true, true⟩

/-- An environment in which every system call of an iteration succeeds. -/
def okIter (t : Time) : IterEnv := ⟨true, okSplit t, true, okSplit t⟩

/-- An environment in which the rename of the main-file rotation fails and
everything else succeeds. -/
def renameFailsIter (t : Time) : IterEnv := ⟨true, ⟨t, true, false, true⟩, true, okSplit t⟩

/-- An environment in which the size check of the main file cannot read the
size (`Stat` fails in `checkSize`) and everything else succeeds. -/
def statFailsIter (t : Time) : IterEnv := ⟨false, okSplit t, true, okSplit t⟩

/-- A message of fifty characters. -/
def x50 : String := String.mk (List.replicate 50 'x')

/-- The logger `NewFileLogger(lv, "logs", "app.log", maxSize)` returns on an
empty disk when both files open, with a channel of the given capacity. -/
def exWorld (cap : Nat) (lv : LogLevel) (maxSize : Int) : World :=
  (initFile ⟨true, true⟩
    ⟨{ level := lv, filePath := "logs", fileName := "app.log", fileObj := none,
       errFileObj := none, maxFileSize := maxSize, logChan := ⟨[], cap⟩ }, exDisk, false⟩).1

/-- The main log file of `exWorld`. -/
def exMain : Path := ⟨"logs", "app.log"⟩

/-- The error log file of `exWorld`. -/
def exErr : Path := ⟨"logs", "app.log.err"⟩

/-- The backup a rotation of `exMain` makes during the second 20:23:05. -/
def exBackup : Path := ⟨"logs", "app.log.bak20210118202305000"⟩

/-- The scenario of the specification: a logger at level INFO with a maximum
file size of 100, two `Info` calls of a fifty-character message from the given
call site, then two iterations of the background loop. -/
def scenario (site : CallSite) : World :=
  drain [okIter exTime, okIter exTimeLater]
    (Info (Info (exWorld initialMaxSize .INFO 100) x50 exTime site) x50 exTime site)

/-- Three `Info` calls. -/
def exCalls : List Call :=
  [⟨.INFO, "first", exTime, exSite⟩, ⟨.INFO, "second", exTime, exSite⟩,
    ⟨.INFO, "third", exTime, exSite⟩]

/-- The three calls made on a logger whose maximum file size is 10 bytes, so
that every line fills the file. -/
def threeCalls : World := logAll exCalls (exWorld initialMaxSize .INFO 10)

/-- The line the background loop writes for the three calls. -/
def exLine (msg : String) : String :=
  "[2021-01-18 20:23:05] [INFO] [main:main.go:12]" ++ msg ++ "\n"

/-- The file `logs/app.log` of another program. -/
def otherFile : Path := ⟨"logs", "app.log"⟩

/-- A disk on which `logs/app.log` exists and belongs to another program. -/
def subDisk : Disk := fun p => if p = otherFile then some "unrelated\n" else none

/-- The logger `NewFileLogger("INFO", "logs", "sub/app.log", maxSize)` returns
on `subDisk` when both files open: its file name has a directory part. -/
def subWorld (maxSize : Int) : World :=
  (initFile ⟨true, true⟩
    ⟨{ level := .INFO, filePath := "logs", fileName := "sub/app.log", fileObj := none,
       errFileObj := none, maxFileSize := maxSize, logChan := ⟨[], initialMaxSize⟩ }, subDisk,
      false⟩).1

/-- The main log file of `subWorld`. -/
def subMain : Path := ⟨"logs", "sub/app.log"⟩

/-- The error log file of `subWorld`. -/
def subErr : Path := ⟨"logs", "sub/app.log.err"⟩

/-- Two `Info` calls. -/
def subCalls : List Call :=
  [⟨.INFO, "first", exTime, exSite⟩, ⟨.INFO, "second", exTime, exSite⟩]

/-- The logger `subWorld` with a maximum file size of 10 bytes after the two
calls and one iteration: its main file holds the first line and has reached
the maximum size. -/
def subFull : World := (writeLogBackground (okIter exTime) (logAll subCalls (subWorld 10))).1

/-- The clock two seconds after 20:23:05. -/
def exTimeAfter : Time := ⟨2021, 1, 18, 20, 23, 7, 0⟩

/-- The logger `subFull` after a second iteration, which rotates and leaves
the main handle open on `logs/app.log`, and a call of `Fatal("boom")`. -/
def subMoved : World :=
  Fatal (writeLogBackground (okIter exTimeNext) subFull).1 "boom" exTimeNext exSite

/-! ## Lemmas on the model -/

/-! ### File names -/

theorem digitChar_ne_slash (n : Nat) : Nat.digitChar (n % 10) ≠ '/' := by
  have h : n % 10 < 10 := Nat.mod_lt _ (by decide)
  generalize n % 10 = m at h
  interval_cases m <;> decide

theorem toDigitsCore_noSlash (fuel n : Nat) (ds : List Char) (h : '/' ∉ ds) :
    '/' ∉ Nat.toDigitsCore 10 fuel n ds := by
  induction fuel generalizing n ds with
  | zero => simpa [Nat.toDigitsCore] using h
  | succ fuel ih =>
    unfold Nat.toDigitsCore
    simp only
    split
    · intro hm
      rcases List.mem_cons.mp hm with h1 | h1
      · exact digitChar_ne_slash _ h1.symm
      · exact h h1
    · apply ih
      intro hm
      rcases List.mem_cons.mp hm with h1 | h1
      · exact digitChar_ne_slash _ h1.symm
      · exact h h1

theorem repr_noSlash (n : Nat) : '/' ∉ (Nat.repr n).data := by
  show '/' ∉ (Nat.toDigits 10 n)
  exact toDigitsCore_noSlash _ _ _ (by simp)

theorem appendInt_noSlash (x width : Nat) : '/' ∉ (appendInt x width).data := by
  unfold appendInt
  simp only [String.data_append, List.mem_append, not_or]
  refine ⟨?_, repr_noSlash x⟩
  intro h
  have := List.eq_of_mem_replicate h
  exact absurd this (by decide)

theorem formatStamp_noSlash (t : Time) : '/' ∉ (formatStamp t).data := by
  unfold formatStamp
  simp only [String.data_append, List.mem_append, not_or]
  exact ⟨⟨⟨⟨⟨⟨appendInt_noSlash _ _, appendInt_noSlash _ _⟩, appendInt_noSlash _ _⟩,
    appendInt_noSlash _ _⟩, appendInt_noSlash _ _⟩, appendInt_noSlash _ _⟩, by decide⟩

theorem baseName_noSlash (s : String) : '/' ∉ (baseName s).data := by
  unfold baseName
  simp only [List.mem_reverse]
  intro h
  have := List.mem_takeWhile_imp h
  simp at this

theorem baseName_of_noSlash (s : String) (h : '/' ∉ s.data) : baseName s = s := by
  unfold baseName
  have : s.data.reverse.takeWhile (fun c => c != '/') = s.data.reverse := by
    rw [List.takeWhile_eq_self_iff]
    intro c hc
    simp only [bne_iff_ne, ne_eq]
    rintro rfl
    exact h (List.mem_reverse.mp hc)
  rw [this, List.reverse_reverse]

theorem baseName_idem (s : String) : baseName (baseName s) = baseName s :=
  baseName_of_noSlash _ (baseName_noSlash s)

theorem baseName_append (s u : String) (h : '/' ∉ u.data) :
    baseName (s ++ u) = baseName s ++ u := by
  unfold baseName
  apply String.ext
  simp only [String.data_append, List.reverse_append]
  rw [List.takeWhile_append_of_pos, List.reverse_append, List.reverse_reverse]
  intro c hc
  simp only [bne_iff_ne, ne_eq, decide_eq_true_eq]
  rintro rfl
  exact h (List.mem_reverse.mp hc)

theorem slash_of_baseName_ne (s : String) (h : baseName s ≠ s) : '/' ∈ s.data := by
  by_contra hn
  exact h (baseName_of_noSlash s hn)

theorem str_append_cancel (n a b : String) : n ++ a = n ++ b ↔ a = b := by
  constructor
  · intro h
    have h2 := congrArg String.data h
    simp only [String.data_append, List.append_cancel_left_eq] at h2
    exact String.ext h2
  · rintro rfl; rfl

/-- Two names of the logger's family, each the configured name or its base
name followed by a suffix without a slash, differ when the suffixes differ. -/
theorem fam_ne (fn x y u v : String) (hx : x = fn ∨ x = baseName fn)
    (hy : y = fn ∨ y = baseName fn) (hu : '/' ∉ u.data) (hv : '/' ∉ v.data) (huv : u ≠ v) :
    x ++ u ≠ y ++ v := by
  by_cases hb : baseName fn = fn
  · rw [hb] at hx hy
    have hx2 : x = fn := by rcases hx with h | h <;> exact h
    have hy2 : y = fn := by rcases hy with h | h <;> exact h
    rw [hx2, hy2, Ne, str_append_cancel]
    exact huv
  · have hs := slash_of_baseName_ne fn hb
    have hnb := baseName_noSlash fn
    rcases hx with rfl | rfl <;> rcases hy with rfl | rfl
    · rw [Ne, str_append_cancel]; exact huv
    · intro h
      have h2 := congrArg String.data h
      simp only [String.data_append] at h2
      have : '/' ∈ x.data ++ u.data := List.mem_append_left _ hs
      rw [h2] at this
      rcases List.mem_append.mp this with h3 | h3
      · exact hnb h3
      · exact hv h3
    · intro h
      have h2 := congrArg String.data h
      simp only [String.data_append] at h2
      have : '/' ∈ y.data ++ v.data := List.mem_append_left _ hs
      rw [← h2] at this
      rcases List.mem_append.mp this with h3 | h3
      · exact hnb h3
      · exact hu h3
    · rw [Ne, str_append_cancel]; exact huv

/-! ### The disk and the rotation block -/

theorem Disk.set_apply (d : Disk) (p q : Path) (c : Option String) :
    d.set p c q = if q = p then c else d q := rfl

theorem path_ne_of_name {a b : Path} (h : a.name ≠ b.name) : a ≠ b := by
  rintro rfl; exact h rfl

theorem name_ne_bak (n s : String) : n ≠ n ++ ".bak" ++ s := by
  intro h
  have h2 : n ++ "" = n ++ (".bak" ++ s) := by simpa [String.append_assoc] using h
  rw [str_append_cancel] at h2
  have h3 := congrArg String.data h2
  simp at h3

theorem content_of_eq_some {d : Disk} {p : Path} {c : String} (h : d p = some c) :
    content d p = c := by
  simp [content, h]

theorem fileSize_congr {d d2 : Disk} {p : Path} (h : d2 p = d p) :
    fileSize d2 p = fileSize d p := by
  simp [fileSize, content, h]

theorem Fprintf_apply_self (d : Disk) (p : Path) (s c : String) (h : d p = some c) :
    Fprintf d (some ⟨p⟩) s p = some (c ++ Fprintf0 s) := by
  simp [Fprintf, h, Disk.set_apply]

theorem Fprintf_apply_ne (d : Disk) (p q : Path) (s : String) (h : q ≠ p) :
    Fprintf d (some ⟨p⟩) s q = d q := by
  cases hdp : d p <;> simp [Fprintf, hdp, Disk.set_apply, h]

theorem Fprintf_isSome (d : Disk) (p q : Path) (s : String) (h : (d q).isSome = true) :
    (Fprintf d (some ⟨p⟩) s q).isSome = true := by
  by_cases hq : q = p
  · subst hq
    obtain ⟨c, hc⟩ := Option.isSome_iff_exists.mp h
    simp [Fprintf_apply_self _ _ _ _ hc]
  · rw [Fprintf_apply_ne _ _ _ _ hq]; exact h

/-- The block `rotateIfNeeded` on a file open under the name `n` in the
logger's directory: every way it can come out.  A rotation renames and reopens
the file of the base name of `n`. -/
theorem rotateIfNeeded_spec (f : FileLogger) (statOk : Bool) (e : SplitEnv) (d : Disk)
    (n : String) :
    (rotateIfNeeded f statOk e d (some ⟨⟨f.filePath, n⟩⟩)).2.2.1 =
        (statOk && decide (f.maxFileSize ≤ fileSize d ⟨f.filePath, n⟩)) ∧
      ((rotateIfNeeded f statOk e d (some ⟨⟨f.filePath, n⟩⟩)).2.2.1 = false →
        rotateIfNeeded f statOk e d (some ⟨⟨f.filePath, n⟩⟩) =
          (d, some (some ⟨⟨f.filePath, n⟩⟩), false, false)) ∧
      ((rotateIfNeeded f statOk e d (some ⟨⟨f.filePath, n⟩⟩)).2.2.1 = true →
        ((rotateIfNeeded f statOk e d (some ⟨⟨f.filePath, n⟩⟩)).2.1 = none ∧
          (rotateIfNeeded f statOk e d (some ⟨⟨f.filePath, n⟩⟩)).2.2.2 = true) ∨
        ((rotateIfNeeded f statOk e d (some ⟨⟨f.filePath, n⟩⟩)).2.1 =
            some (some ⟨⟨f.filePath, baseName n⟩⟩) ∧
          ((rotateIfNeeded f statOk e d (some ⟨⟨f.filePath, n⟩⟩)).1
            ⟨f.filePath, baseName n⟩).isSome = true)) ∧
      (∀ q, q ≠ ⟨f.filePath, baseName n⟩ → q ≠ newLogName f (baseName n) e.now →
        (rotateIfNeeded f statOk e d (some ⟨⟨f.filePath, n⟩⟩)).1 q = d q) ∧
      ((rotateIfNeeded f statOk e d (some ⟨⟨f.filePath, n⟩⟩)).2.2.1 = true →
        (rotateIfNeeded f statOk e d (some ⟨⟨f.filePath, n⟩⟩)).2.2.2 = false →
        (rotateIfNeeded f statOk e d (some ⟨⟨f.filePath, n⟩⟩)).2.1 =
            some (some ⟨⟨f.filePath, baseName n⟩⟩) ∧
          (rotateIfNeeded f statOk e d (some ⟨⟨f.filePath, n⟩⟩)).1 ⟨f.filePath, baseName n⟩ =
            some "" ∧
          (rotateIfNeeded f statOk e d (some ⟨⟨f.filePath, n⟩⟩)).1
            (newLogName f (baseName n) e.now) = d ⟨f.filePath, baseName n⟩) := by
  have hne : (⟨f.filePath, baseName n⟩ : Path) ≠ newLogName f (baseName n) e.now := by
    apply path_ne_of_name
    simpa [newLogName] using name_ne_bak (baseName n) (formatStamp e.now)
  obtain ⟨now, so, ro, oo⟩ := e
  have hset : ∀ (x : Disk) (p q : Path) (c : Option String),
      x.set p c q = if q = p then c else x q := fun _ _ _ _ => rfl
  by_cases hs : f.maxFileSize ≤ ((((d ⟨f.filePath, n⟩).getD "").utf8ByteSize : Nat) : Int) <;>
    cases hL : d ⟨f.filePath, baseName n⟩ <;>
    cases statOk <;> cases so <;> cases ro <;> cases oo <;>
    simp [rotateIfNeeded, checkSize, splitFile, renameSucceeds, Stat, OpenFile, Rename,
      fileSize, content, hs, hL, hset, hne, hne.symm] <;>
    (try (intro q h1 h2; simp [h1, h2]))

/-! ### The names a running logger uses are all different -/

theorem err_noSlash : '/' ∉ (".err" : String).data := by decide

theorem bak_noSlash (t : Time) : '/' ∉ (".bak" ++ formatStamp t).data := by
  simp only [String.data_append, List.mem_append, not_or]
  exact ⟨by decide, formatStamp_noSlash t⟩

theorem errbak_noSlash (t : Time) : '/' ∉ (".err" ++ (".bak" ++ formatStamp t)).data := by
  simp only [String.data_append, List.mem_append, not_or]
  exact ⟨by decide, by decide, formatStamp_noSlash t⟩

theorem nil_noSlash : '/' ∉ ("" : String).data := by decide

theorem suffix_nil_ne_err : ("" : String) ≠ ".err" := by decide

theorem suffix_nil_ne_bak (t : Time) : ("" : String) ≠ ".bak" ++ formatStamp t := by
  intro h; have := congrArg String.data h; simp at this

theorem suffix_nil_ne_errbak (t : Time) : ("" : String) ≠ ".err" ++ (".bak" ++ formatStamp t) := by
  intro h; have := congrArg String.data h; simp at this

theorem suffix_err_ne_bak (t : Time) : (".err" : String) ≠ ".bak" ++ formatStamp t := by
  intro h; have := congrArg String.data h; simp at this

theorem suffix_err_ne_errbak (t : Time) :
    (".err" : String) ≠ ".err" ++ (".bak" ++ formatStamp t) := by
  intro h
  have h2 : (".err" : String) ++ "" = ".err" ++ (".bak" ++ formatStamp t) := by simpa using h
  rw [str_append_cancel] at h2
  exact suffix_nil_ne_bak t h2

theorem suffix_bak_ne_errbak (s t : Time) :
    ".bak" ++ formatStamp s ≠ ".err" ++ (".bak" ++ formatStamp t) := by
  intro h; have := congrArg String.data h; simp at this

theorem pne_main_err (f : FileLogger) (x y : String)
    (hx : x = f.fileName ∨ x = baseName f.fileName)
    (hy : y = f.fileName ∨ y = baseName f.fileName) :
    (⟨f.filePath, x⟩ : Path) ≠ ⟨f.filePath, y ++ ".err"⟩ := by
  apply path_ne_of_name
  have := fam_ne f.fileName x y "" ".err" hx hy nil_noSlash err_noSlash suffix_nil_ne_err
  simpa using this

theorem pne_main_bakM (f : FileLogger) (x : String)
    (hx : x = f.fileName ∨ x = baseName f.fileName) (t : Time) :
    (⟨f.filePath, x⟩ : Path) ≠ newLogName f (baseName f.fileName) t := by
  apply path_ne_of_name
  have := fam_ne f.fileName x (baseName f.fileName) "" (".bak" ++ formatStamp t) hx (Or.inr rfl)
    nil_noSlash (bak_noSlash t) (suffix_nil_ne_bak t)
  simpa [newLogName, String.append_assoc] using this

theorem pne_main_bakE (f : FileLogger) (x : String)
    (hx : x = f.fileName ∨ x = baseName f.fileName) (t : Time) :
    (⟨f.filePath, x⟩ : Path) ≠ newLogName f (baseName f.fileName ++ ".err") t := by
  apply path_ne_of_name
  have := fam_ne f.fileName x (baseName f.fileName) "" (".err" ++ (".bak" ++ formatStamp t)) hx
    (Or.inr rfl) nil_noSlash (errbak_noSlash t) (suffix_nil_ne_errbak t)
  simpa [newLogName, String.append_assoc] using this

theorem pne_err_bakM (f : FileLogger) (y : String)
    (hy : y = f.fileName ∨ y = baseName f.fileName) (t : Time) :
    (⟨f.filePath, y ++ ".err"⟩ : Path) ≠ newLogName f (baseName f.fileName) t := by
  apply path_ne_of_name
  have := fam_ne f.fileName y (baseName f.fileName) ".err" (".bak" ++ formatStamp t) hy
    (Or.inr rfl) err_noSlash (bak_noSlash t) (suffix_err_ne_bak t)
  simpa [newLogName, String.append_assoc] using this

theorem pne_err_bakE (f : FileLogger) (y : String)
    (hy : y = f.fileName ∨ y = baseName f.fileName) (t : Time) :
    (⟨f.filePath, y ++ ".err"⟩ : Path) ≠ newLogName f (baseName f.fileName ++ ".err") t := by
  apply path_ne_of_name
  have := fam_ne f.fileName y (baseName f.fileName) ".err" (".err" ++ (".bak" ++ formatStamp t))
    hy (Or.inr rfl) err_noSlash (errbak_noSlash t) (suffix_err_ne_errbak t)
  simpa [newLogName, String.append_assoc] using this

theorem pne_bakM_bakE (f : FileLogger) (s t : Time) :
    newLogName f (baseName f.fileName) s ≠ newLogName f (baseName f.fileName ++ ".err") t := by
  apply path_ne_of_name
  have := fam_ne f.fileName (baseName f.fileName) (baseName f.fileName)
    (".bak" ++ formatStamp s) (".err" ++ (".bak" ++ formatStamp t)) (Or.inr rfl) (Or.inr rfl)
    (bak_noSlash s) (errbak_noSlash t) (suffix_bak_ne_errbak s t)
  simpa [newLogName, String.append_assoc] using this

theorem nextName_false (n : String) : nextName false n = n := rfl

theorem nextName_true (n : String) : nextName true n = baseName n := rfl

/-- The rotation block on an existing file open under the name `n`, summed up
by the name the handle has afterwards: the base name of `n` if `splitFile` was
called, `n` itself if not. -/
theorem rotate_summary (f : FileLogger) (statOk : Bool) (e : SplitEnv) (d : Disk)
    (n : String) (hex : (d ⟨f.filePath, n⟩).isSome = true) :
    (rotateIfNeeded f statOk e d (some ⟨⟨f.filePath, n⟩⟩)).2.2.1 =
        (statOk && decide (f.maxFileSize ≤ fileSize d ⟨f.filePath, n⟩)) ∧
      ((rotateIfNeeded f statOk e d (some ⟨⟨f.filePath, n⟩⟩)).2.1 = none ∧
          (rotateIfNeeded f statOk e d (some ⟨⟨f.filePath, n⟩⟩)).2.2.2 = true ∨
        (rotateIfNeeded f statOk e d (some ⟨⟨f.filePath, n⟩⟩)).2.1 =
            some (some ⟨⟨f.filePath,
              nextName (rotateIfNeeded f statOk e d (some ⟨⟨f.filePath, n⟩⟩)).2.2.1 n⟩⟩) ∧
          ((rotateIfNeeded f statOk e d (some ⟨⟨f.filePath, n⟩⟩)).1
            ⟨f.filePath,
              nextName (rotateIfNeeded f statOk e d (some ⟨⟨f.filePath, n⟩⟩)).2.2.1 n⟩).isSome = true) ∧
      (∀ q, q ≠ ⟨f.filePath,
            nextName (rotateIfNeeded f statOk e d (some ⟨⟨f.filePath, n⟩⟩)).2.2.1 n⟩ →
          ((rotateIfNeeded f statOk e d (some ⟨⟨f.filePath, n⟩⟩)).2.2.1 = true →
            q ≠ newLogName f (baseName n) e.now) →
          (rotateIfNeeded f statOk e d (some ⟨⟨f.filePath, n⟩⟩)).1 q = d q) ∧
      ((rotateIfNeeded f statOk e d (some ⟨⟨f.filePath, n⟩⟩)).2.2.2 = false →
        (rotateIfNeeded f statOk e d (some ⟨⟨f.filePath, n⟩⟩)).1
            ⟨f.filePath,
              nextName (rotateIfNeeded f statOk e d (some ⟨⟨f.filePath, n⟩⟩)).2.2.1 n⟩ =
          some (if (rotateIfNeeded f statOk e d (some ⟨⟨f.filePath, n⟩⟩)).2.2.1 = true then ""
            else content d ⟨f.filePath, n⟩) ∧
        ((rotateIfNeeded f statOk e d (some ⟨⟨f.filePath, n⟩⟩)).2.2.1 = true →
          (rotateIfNeeded f statOk e d (some ⟨⟨f.filePath, n⟩⟩)).1
              (newLogName f (baseName n) e.now) = d ⟨f.filePath, baseName n⟩)) := by
  obtain ⟨R1, R2, R3, R4, R5⟩ := rotateIfNeeded_spec f statOk e d n
  obtain ⟨c, hc⟩ := Option.isSome_iff_exists.mp hex
  generalize rotateIfNeeded f statOk e d (some ⟨⟨f.filePath, n⟩⟩) = R at R1 R2 R3 R4 R5 ⊢
  obtain ⟨rd, rh, rc, rf⟩ := R
  simp only at R1 R2 R3 R4 R5 ⊢
  refine ⟨R1, ?_⟩
  cases hrc : rc with
  | false =>
    have h := R2 hrc
    simp only [Prod.mk.injEq] at h
    obtain ⟨rfl, rfl, -, rfl⟩ := h
    simp [hc, content, nextName]
  | true =>
    simp only [nextName, if_true]
    refine ⟨?_, fun q h1 h2 => R4 q h1 (h2 trivial), fun hf => ?_⟩
    · rcases R3 hrc with h | h
      · exact Or.inl h
      · exact Or.inr h
    · obtain ⟨-, h2, h3⟩ := R5 hrc hf
      exact ⟨h2, fun _ => h3⟩

/-! ### One iteration of the background loop -/

/-- One iteration of a running logger, whatever the file name is: which
rotations it makes, which files it leaves alone, and what it writes where. -/
theorem step_core (e : IterEnv) (w : World) (nM nE : String) (halive : w.alive = true)
    (hS : SinksOpen w nM nE) :
    (writeLogBackground e w).2.mainSplit =
        (e.mainStatOk && decide (w.fl.maxFileSize ≤ fileSize w.disk ⟨w.fl.filePath, nM⟩)) ∧
      ((writeLogBackground e w).2.errSplit = true →
        w.fl.maxFileSize ≤ fileSize w.disk ⟨w.fl.filePath, nE⟩ ∧
        ∃ x, (writeLogBackground e w).2.popped = some x ∧ LogLevel.ERROR ≤ x.level) ∧
      ((writeLogBackground e w).1.alive = true →
        (writeLogBackground e w).1.fl.fileObj =
          some ⟨⟨w.fl.filePath, nextName (writeLogBackground e w).2.mainSplit nM⟩⟩ ∧
        (writeLogBackground e w).1.fl.errFileObj =
          some ⟨⟨w.fl.filePath, nextName (writeLogBackground e w).2.errSplit nE⟩⟩ ∧
        ((writeLogBackground e w).1.disk
          ⟨w.fl.filePath, nextName (writeLogBackground e w).2.mainSplit nM⟩).isSome = true ∧
        ((writeLogBackground e w).1.disk
          ⟨w.fl.filePath, nextName (writeLogBackground e w).2.errSplit nE⟩).isSome = true) ∧
      (∀ q, q ≠ ⟨w.fl.filePath, nextName (writeLogBackground e w).2.mainSplit nM⟩ →
        ((writeLogBackground e w).2.mainSplit = true →
          q ≠ newLogName w.fl (baseName w.fl.fileName) e.mainSplit.now) →
        q ≠ ⟨w.fl.filePath, nextName (writeLogBackground e w).2.errSplit nE⟩ →
        ((writeLogBackground e w).2.errSplit = true →
          q ≠ newLogName w.fl (baseName w.fl.fileName ++ ".err") e.errSplit.now) →
        (writeLogBackground e w).1.disk q = w.disk q) ∧
      (∀ x, (writeLogBackground e w).2.popped = some x →
        w.fl.logChan.buf.head? = some x ∧
        (writeLogBackground e w).1.fl.fileObj =
          some ⟨⟨w.fl.filePath, nextName (writeLogBackground e w).2.mainSplit nM⟩⟩ ∧
        ∃ pre, (writeLogBackground e w).1.disk
            ⟨w.fl.filePath, nextName (writeLogBackground e w).2.mainSplit nM⟩ =
          some (pre ++ Fprintf0 (logInfo x))) ∧
      (∀ x, (writeLogBackground e w).2.popped = some x → LogLevel.ERROR ≤ x.level →
        (writeLogBackground e w).1.alive = true →
        ∃ pre, (writeLogBackground e w).1.disk
            ⟨w.fl.filePath, nextName (writeLogBackground e w).2.errSplit nE⟩ =
          some (pre ++ Fprintf0 (logInfo x))) ∧
      (∀ x, (writeLogBackground e w).2.popped = some x → ¬ (LogLevel.ERROR ≤ x.level) →
        (writeLogBackground e w).2.errSplit = false ∧
        (writeLogBackground e w).1.fl.errFileObj = w.fl.errFileObj ∧
        (writeLogBackground e w).1.disk ⟨w.fl.filePath, nE⟩ = w.disk ⟨w.fl.filePath, nE⟩) ∧
      (NoRotationFails e w →
        (writeLogBackground e w).1.alive = true ∧
        (writeLogBackground e w).1.fl.logChan.buf = w.fl.logChan.buf.tail ∧
        (writeLogBackground e w).2.popped = w.fl.logChan.buf.head? ∧
        (writeLogBackground e w).1.disk
            ⟨w.fl.filePath, nextName (writeLogBackground e w).2.mainSplit nM⟩ =
          some ((if (writeLogBackground e w).2.mainSplit = true then ""
              else content w.disk ⟨w.fl.filePath, nM⟩) ++
            (match w.fl.logChan.buf.head? with
              | none => ""
              | some x => Fprintf0 (logInfo x))) ∧
        ((writeLogBackground e w).2.mainSplit = true →
          (writeLogBackground e w).1.disk
              (newLogName w.fl (baseName w.fl.fileName) e.mainSplit.now) =
            w.disk ⟨w.fl.filePath, baseName w.fl.fileName⟩) ∧
        (writeLogBackground e w).1.disk
            ⟨w.fl.filePath, nextName (writeLogBackground e w).2.errSplit nE⟩ =
          (match w.fl.logChan.buf.head? with
            | none => w.disk ⟨w.fl.filePath, nE⟩
            | some x =>
              if LogLevel.ERROR ≤ x.level then
                some ((if (writeLogBackground e w).2.errSplit = true then ""
                    else content w.disk ⟨w.fl.filePath, nE⟩) ++
                  Fprintf0 (logInfo x))
              else w.disk ⟨w.fl.filePath, nE⟩) ∧
        ((writeLogBackground e w).2.errSplit = true →
          (writeLogBackground e w).1.disk
              (newLogName w.fl (baseName w.fl.fileName ++ ".err") e.errSplit.now) =
            w.disk ⟨w.fl.filePath, baseName w.fl.fileName ++ ".err"⟩)) := by
  obtain ⟨hf, hef, hxM, hxE, hPM, hPE, -, -⟩ := hS
  have hbM : baseName nM = baseName w.fl.fileName := by
    rcases hxM with rfl | rfl
    · rfl
    · exact baseName_idem _
  obtain ⟨yE, hyE, rfl⟩ : ∃ y, (y = w.fl.fileName ∨ y = baseName w.fl.fileName) ∧
      nE = y ++ ".err" := by
    rcases hxE with rfl | rfl
    · exact ⟨_, Or.inl (by first | rfl | trivial), (by first | rfl | trivial)⟩
    · exact ⟨_, Or.inr (by first | rfl | trivial), (by first | rfl | trivial)⟩
  have hbE : baseName (yE ++ ".err") = baseName w.fl.fileName ++ ".err" := by
    rw [baseName_append _ _ err_noSlash]
    rcases hyE with rfl | rfl
    · rfl
    · rw [baseName_idem]
  have M := rotate_summary w.fl e.mainStatOk e.mainSplit w.disk nM hPM
  rw [hbM] at M
  unfold NoRotationFails
  unfold writeLogBackground
  simp only [halive, hf, hef, if_true]
  generalize rotateIfNeeded w.fl e.mainStatOk e.mainSplit w.disk
    (some ⟨⟨w.fl.filePath, nM⟩⟩) = m at M ⊢
  obtain ⟨md, mh, mc, mf⟩ := m
  simp only at M ⊢
  obtain ⟨M1, M2, M3, M4⟩ := M
  -- the name of the main handle after the rotation block, and its family
  have hxM' : nextName mc nM = w.fl.fileName ∨ nextName mc nM = baseName w.fl.fileName := by
    cases mc
    · simpa [nextName] using hxM
    · simp [nextName, hbM]
  have hyE' : ∀ c : Bool, ∃ y, (y = w.fl.fileName ∨ y = baseName w.fl.fileName) ∧
      nextName c (yE ++ ".err") = y ++ ".err" := by
    intro c
    cases c
    · exact ⟨yE, hyE, by simp [nextName]⟩
    · exact ⟨baseName w.fl.fileName, Or.inr (by first | rfl | trivial), by simp [nextName, hbE]⟩
  -- the error file is not touched by the rotation of the main file
  have hmdE : ∀ y, (y = w.fl.fileName ∨ y = baseName w.fl.fileName) →
      md ⟨w.fl.filePath, y ++ ".err"⟩ = w.disk ⟨w.fl.filePath, y ++ ".err"⟩ := fun y hy =>
    M3 _ (pne_main_err w.fl _ y hxM' hy).symm (fun _ => pne_err_bakM w.fl y hy _)
  rcases M2 with ⟨rfl, rfl⟩ | ⟨rfl, hmdP⟩
  · -- the rotation of the main file fails: the goroutine returns
    simp only
    refine ⟨M1, (by first | trivial | rfl | simp), (by first | trivial | rfl | simp), ?_, (by first | trivial | rfl | simp), (by first | trivial | rfl | simp), (by first | trivial | rfl | simp), (by first | trivial | rfl | simp)⟩
    intro q h1 h2 h3 _
    exact M3 q h1 h2
  · simp only
    cases hb : w.fl.logChan.buf with
    | nil =>
      simp only
      refine ⟨M1, (by first | trivial | rfl | simp), ?_, ?_, (by first | trivial | rfl | simp), (by first | trivial | rfl | simp), (by first | trivial | rfl | simp), ?_⟩
      · intro _
        refine ⟨(by first | rfl | trivial), by rw [nextName_false], hmdP, ?_⟩
        rw [nextName_false, hmdE yE hyE]; exact hPE
      · intro q h1 h2 _ _
        exact M3 q h1 h2
      · intro hnr
        obtain ⟨hmf, -⟩ := hnr
        obtain ⟨h1, h2⟩ := M4 hmf
        refine ⟨(by first | rfl | trivial), (by first | rfl | trivial), (by first | rfl | trivial), ?_, h2, ?_, (by first | trivial | rfl | simp)⟩
        · rw [h1]; simp
        · simp only [nextName_false, List.head?_nil]
          exact hmdE yE hyE
    | cons r rest =>
      simp only
      obtain ⟨cM, hcM⟩ := Option.isSome_iff_exists.mp hmdP
      have hd2P := Fprintf_apply_self md ⟨w.fl.filePath, nextName mc nM⟩ (logInfo r) cM hcM
      have hd2 : ∀ q, q ≠ ⟨w.fl.filePath, nextName mc nM⟩ →
          Fprintf md (some ⟨⟨w.fl.filePath, nextName mc nM⟩⟩) (logInfo r) q = md q :=
        fun q hq => Fprintf_apply_ne _ _ _ _ hq
      have hd2E : ∀ y, (y = w.fl.fileName ∨ y = baseName w.fl.fileName) →
          Fprintf md (some ⟨⟨w.fl.filePath, nextName mc nM⟩⟩) (logInfo r)
            ⟨w.fl.filePath, y ++ ".err"⟩ = w.disk ⟨w.fl.filePath, y ++ ".err"⟩ := fun y hy => by
        rw [hd2 _ (pne_main_err w.fl _ y hxM' hy).symm, hmdE y hy]
      have hd2B : Fprintf md (some ⟨⟨w.fl.filePath, nextName mc nM⟩⟩) (logInfo r)
          (newLogName w.fl (baseName w.fl.fileName) e.mainSplit.now) =
          md (newLogName w.fl (baseName w.fl.fileName) e.mainSplit.now) :=
        hd2 _ (pne_main_bakM w.fl _ hxM' _).symm
      by_cases hl : LogLevel.ERROR ≤ r.level
      · simp only [hl, if_true]
        have hE2 : (Fprintf md (some ⟨⟨w.fl.filePath, nextName mc nM⟩⟩) (logInfo r)
            ⟨w.fl.filePath, yE ++ ".err"⟩).isSome = true := by
          rw [hd2E yE hyE]; exact hPE
        have X := rotate_summary w.fl e.errStatOk e.errSplit
          (Fprintf md (some ⟨⟨w.fl.filePath, nextName mc nM⟩⟩) (logInfo r)) (yE ++ ".err") hE2
        rw [hbE, fileSize_congr (hd2E yE hyE), content, hd2E yE hyE,
          hd2E (baseName w.fl.fileName) (Or.inr rfl)] at X
        generalize rotateIfNeeded w.fl e.errStatOk e.errSplit
          (Fprintf md (some ⟨⟨w.fl.filePath, nextName mc nM⟩⟩) (logInfo r))
          (some ⟨⟨w.fl.filePath, yE ++ ".err"⟩⟩) = x at X ⊢
        obtain ⟨xd, xh, xc, xf⟩ := x
        simp only at X ⊢
        obtain ⟨X1, X2, X3, X4⟩ := X
        obtain ⟨y', hy', hn'⟩ := hyE' xc
        have hxc : xc = true → w.fl.maxFileSize ≤ fileSize w.disk ⟨w.fl.filePath, yE ++ ".err"⟩ := by
          intro h; rw [X1] at h; simp at h; exact h.2
        -- the main file and its backup are not touched by the rotation of the error file
        have hxdP : xd ⟨w.fl.filePath, nextName mc nM⟩ = some (cM ++ Fprintf0 (logInfo r)) := by
          rw [X3 _ (by rw [hn']; exact pne_main_err w.fl _ y' hxM' hy')
            (fun _ => pne_main_bakE w.fl _ hxM' _), hd2P]
        have hxdB : xd (newLogName w.fl (baseName w.fl.fileName) e.mainSplit.now) =
            md (newLogName w.fl (baseName w.fl.fileName) e.mainSplit.now) := by
          rw [X3 _ (by rw [hn']; exact (pne_err_bakM w.fl y' hy' _).symm)
            (fun _ => pne_bakM_bakE w.fl _ _), hd2B]
        have hxdq : ∀ q, q ≠ ⟨w.fl.filePath, nextName mc nM⟩ →
            (mc = true → q ≠ newLogName w.fl (baseName w.fl.fileName) e.mainSplit.now) →
            q ≠ ⟨w.fl.filePath, nextName xc (yE ++ ".err")⟩ →
            (xc = true → q ≠ newLogName w.fl (baseName w.fl.fileName ++ ".err") e.errSplit.now) →
            xd q = w.disk q := by
          intro q h1 h2 h3 h4
          rw [X3 q h3 h4, hd2 q h1, M3 q h1 h2]
        rcases X2 with ⟨rfl, rfl⟩ | ⟨rfl, hxdE⟩
        · -- the rotation of the error file fails: the goroutine returns
          simp only
          refine ⟨M1, fun h => ⟨hxc h, r, (by first | rfl | trivial), hl⟩, (by first | trivial | rfl | simp), hxdq, ?_, (by first | trivial | rfl | simp), ?_, (by first | trivial | rfl | simp)⟩
          · intro x hx
            simp only [Option.some.injEq] at hx
            subst hx
            exact ⟨(by first | rfl | trivial), (by first | rfl | trivial), cM, hxdP⟩
          · intro x hx hnl
            simp only [Option.some.injEq] at hx
            subst hx
            exact absurd hl hnl
        · simp only
          obtain ⟨cE, hcE⟩ := Option.isSome_iff_exists.mp hxdE
          have hfinE := Fprintf_apply_self xd ⟨w.fl.filePath, nextName xc (yE ++ ".err")⟩
            (logInfo r) cE hcE
          have hfin : ∀ q, q ≠ ⟨w.fl.filePath, nextName xc (yE ++ ".err")⟩ →
              Fprintf xd (some ⟨⟨w.fl.filePath, nextName xc (yE ++ ".err")⟩⟩) (logInfo r) q =
                xd q := fun q hq => Fprintf_apply_ne _ _ _ _ hq
          have hfinP : Fprintf xd (some ⟨⟨w.fl.filePath, nextName xc (yE ++ ".err")⟩⟩)
              (logInfo r) ⟨w.fl.filePath, nextName mc nM⟩ = some (cM ++ Fprintf0 (logInfo r)) := by
            rw [hfin _ (by rw [hn']; exact pne_main_err w.fl _ y' hxM' hy'), hxdP]
          refine ⟨M1, fun h => ⟨hxc h, r, (by first | rfl | trivial), hl⟩, ?_, ?_, ?_, ?_, ?_, ?_⟩
          · intro _
            refine ⟨(by first | rfl | trivial), (by first | rfl | trivial), ?_, ?_⟩
            · rw [hfinP]; rfl
            · rw [hfinE]; rfl
          · intro q h1 h2 h3 h4
            rw [hfin q h3]
            exact hxdq q h1 h2 h3 h4
          · intro x hx
            simp only [Option.some.injEq] at hx
            subst hx
            exact ⟨(by first | rfl | trivial), (by first | rfl | trivial), cM, hfinP⟩
          · intro x hx _ _
            simp only [Option.some.injEq] at hx
            subst hx
            exact ⟨cE, hfinE⟩
          · intro x hx hnl
            simp only [Option.some.injEq] at hx
            subst hx
            exact absurd hl hnl
          · rintro ⟨hmf, hxf⟩
            obtain ⟨h1, h2⟩ := M4 hmf
            obtain ⟨h3, h4⟩ := X4 hxf
            rw [hcM] at h1
            rw [hcE] at h3
            simp only [Option.some.injEq] at h1 h3
            refine ⟨(by first | rfl | trivial), (by first | rfl | trivial), (by first | rfl | trivial), ?_, ?_, ?_, ?_⟩
            · rw [hfinP, h1]; rfl
            · intro h
              rw [hfin _ (by rw [hn']; exact (pne_err_bakM w.fl y' hy' _).symm), hxdB]
              exact h2 h
            · rw [hfinE, h3]
              simp [hl, content]
            · intro h
              rw [hfin _ (by rw [hn']; exact (pne_err_bakE w.fl y' hy' _).symm)]
              exact h4 h
      · simp only [hl, if_false]
        refine ⟨M1, (by first | trivial | rfl | simp), ?_, ?_, ?_, ?_, ?_, ?_⟩
        · intro _
          refine ⟨(by first | rfl | trivial), by rw [nextName_false], ?_, ?_⟩
          · rw [hd2P]; rfl
          · rw [nextName_false, hd2E yE hyE]; exact hPE
        · intro q h1 h2 _ _
          rw [hd2 q h1]
          exact M3 q h1 h2
        · intro x hx
          simp only [Option.some.injEq] at hx
          subst hx
          exact ⟨(by first | rfl | trivial), (by first | rfl | trivial), cM, hd2P⟩
        · intro x hx hnl
          simp only [Option.some.injEq] at hx
          subst hx
          exact absurd hnl hl
        · intro x hx _
          exact ⟨(by first | rfl | trivial), (by first | rfl | trivial), hd2E yE hyE⟩
        · intro hnr
          obtain ⟨hmf, -⟩ := hnr
          obtain ⟨h1, h2⟩ := M4 hmf
          rw [hcM] at h1
          simp only [Option.some.injEq] at h1
          refine ⟨(by first | rfl | trivial), (by first | rfl | trivial), (by first | rfl | trivial), ?_, ?_, ?_, (by first | trivial | rfl | simp)⟩
          · rw [hd2P, h1]; rfl
          · intro h
            rw [hd2B]; exact h2 h
          · simp only [nextName_false, List.head?_cons, hl, if_false]
            exact hd2E yE hyE

/-! ### Invariants of the reachable states -/

theorem step_dead (e : IterEnv) (w : World) (h : w.alive = false) :
    writeLogBackground e w = (w, ⟨false, false, none, false, false⟩) := by
  simp [writeLogBackground, h]

theorem step_alive (e : IterEnv) (w : World) (h : (writeLogBackground e w).1.alive = true) :
    w.alive = true := by
  cases ha : w.alive with
  | true => rfl
  | false => rw [step_dead e w ha] at h; rw [← h, ha]

/-- An iteration leaves the configuration of the logger alone and never adds
to the queue. -/
theorem step_static (e : IterEnv) (w : World) :
    (writeLogBackground e w).1.fl.level = w.fl.level ∧
      (writeLogBackground e w).1.fl.filePath = w.fl.filePath ∧
      (writeLogBackground e w).1.fl.fileName = w.fl.fileName ∧
      (writeLogBackground e w).1.fl.maxFileSize = w.fl.maxFileSize ∧
      (writeLogBackground e w).1.fl.logChan.cap = w.fl.logChan.cap ∧
      (writeLogBackground e w).1.fl.logChan.buf.length ≤ w.fl.logChan.buf.length := by
  unfold writeLogBackground
  cases w.alive with
  | false => simp
  | true =>
    simp only [if_true]
    split
    · simp
    · split
      · simp_all
      · rename_i r rest hb
        split
        · split <;> simp [hb]
        · simp [hb]

theorem log_static (w : World) (lv : LogLevel) (msg : String) (now : Time) (c : CallSite) :
    (log w lv msg now c).fl.level = w.fl.level ∧
      (log w lv msg now c).fl.filePath = w.fl.filePath ∧
      (log w lv msg now c).fl.fileName = w.fl.fileName ∧
      (log w lv msg now c).fl.maxFileSize = w.fl.maxFileSize ∧
      (log w lv msg now c).fl.fileObj = w.fl.fileObj ∧
      (log w lv msg now c).fl.errFileObj = w.fl.errFileObj ∧
      (log w lv msg now c).fl.logChan.cap = w.fl.logChan.cap ∧
      (log w lv msg now c).disk = w.disk ∧
      (log w lv msg now c).alive = w.alive := by
  unfold log Chan.trySend
  split
  · split <;> simp
  · simp

theorem log_length_le (w : World) (lv : LogLevel) (msg : String) (now : Time) (c : CallSite)
    (h : w.fl.logChan.buf.length ≤ w.fl.logChan.cap) :
    (log w lv msg now c).fl.logChan.buf.length ≤ (log w lv msg now c).fl.logChan.cap := by
  unfold log Chan.trySend
  split
  · split
    · simp; omega
    · simpa using h
  · exact h

theorem log_sinks (w : World) (lv : LogLevel) (msg : String) (now : Time) (c : CallSite)
    (nM nE : String) (h : SinksOpen w nM nE) : SinksOpen (log w lv msg now c) nM nE := by
  obtain ⟨-, h2, h3, h4, h5, h6, -, h8, -⟩ := log_static w lv msg now c
  unfold SinksOpen mainPath errPath at h ⊢
  rw [h2, h3, h4, h5, h6, h8]
  exact h

theorem init_sinks (MaxSize : Nat) (e : OpenEnv) (d : Disk) (levelStr fp fn : String)
    (maxSize : Int) (w : World) (h : NewFileLogger MaxSize e d levelStr fp fn maxSize = .ok w) :
    (w.alive = true → SinksOpen w w.fl.fileName (w.fl.fileName ++ ".err")) ∧
      w.fl.logChan.buf.length ≤ w.fl.logChan.cap := by
  unfold NewFileLogger at h
  cases hp : parseLogLevel levelStr with
  | error err => simp [hp] at h
  | ok lv =>
    simp only [hp, Except.ok.injEq] at h
    subst h
    obtain ⟨mo, eo⟩ := e
    have hne : (⟨fp, fn⟩ : Path) ≠ ⟨fp, fn ++ ".err"⟩ := by
      apply path_ne_of_name
      intro h
      have h2 : fn ++ "" = fn ++ ".err" := by simpa using h
      rw [str_append_cancel] at h2
      exact absurd h2 (by decide)
    cases mo <;> cases eo <;>
      cases h1 : d ⟨fp, fn⟩ <;> cases h2 : d ⟨fp, fn ++ ".err"⟩ <;>
      simp [initFile, OpenFile, SinksOpen, Disk.set_apply, h1, h2, hne, hne.symm]

/-- The handles of a running logger after an iteration are where the rotation
blocks of the iteration put them. -/
theorem step_sinks (e : IterEnv) (w : World) (nM nE : String) (halive : w.alive = true)
    (hS : SinksOpen w nM nE) (h2 : (writeLogBackground e w).1.alive = true) :
    SinksOpen (writeLogBackground e w).1 (nextName (writeLogBackground e w).2.mainSplit nM)
      (nextName (writeLogBackground e w).2.errSplit nE) := by
  obtain ⟨A, B, C, D, -, -, -, -⟩ := step_core e w nM nE halive hS
  obtain ⟨-, s2, s3, s4, -, -⟩ := step_static e w
  obtain ⟨c1, c2, c3, c4⟩ := C h2
  obtain ⟨-, -, hxM, hxE, -, -, hfM, hfE⟩ := hS
  have hbM : baseName nM = baseName w.fl.fileName := by
    rcases hxM with rfl | rfl
    · rfl
    · exact baseName_idem _
  obtain ⟨yE, hyE, rfl⟩ : ∃ y, (y = w.fl.fileName ∨ y = baseName w.fl.fileName) ∧
      nE = y ++ ".err" := by
    rcases hxE with rfl | rfl
    · exact ⟨_, Or.inl rfl, rfl⟩
    · exact ⟨_, Or.inr rfl, rfl⟩
  have hbE : baseName (yE ++ ".err") = baseName w.fl.fileName ++ ".err" := by
    rw [baseName_append _ _ err_noSlash]
    rcases hyE with rfl | rfl
    · rfl
    · rw [baseName_idem]
  have hxM' : ∀ c : Bool, nextName c nM = w.fl.fileName ∨
      nextName c nM = baseName w.fl.fileName := by
    intro c
    cases c
    · simpa [nextName] using hxM
    · simp [nextName, hbM]
  have hyE' : ∀ c : Bool, ∃ y, (y = w.fl.fileName ∨ y = baseName w.fl.fileName) ∧
      nextName c (yE ++ ".err") = y ++ ".err" := by
    intro c
    cases c
    · exact ⟨yE, hyE, rfl⟩
    · exact ⟨baseName w.fl.fileName, Or.inr rfl, by simp [nextName, hbE]⟩
  obtain ⟨y', hy', hn'⟩ := hyE' (writeLogBackground e w).2.errSplit
  unfold SinksOpen mainPath errPath
  rw [s2, s3, s4]
  refine ⟨c1, c2, hxM' _, ?_, c3, c4, ?_, ?_⟩
  · rw [hn']
    rcases hy' with rfl | rfl
    · exact Or.inl rfl
    · exact Or.inr rfl
  · -- the configured main file, once left, stays as large as it was
    intro hne
    have hfr : (writeLogBackground e w).1.disk ⟨w.fl.filePath, w.fl.fileName⟩ =
        w.disk ⟨w.fl.filePath, w.fl.fileName⟩ := by
      apply D
      · exact fun h => hne (congrArg Path.name h).symm
      · exact fun _ => pne_main_bakM w.fl _ (Or.inl rfl) _
      · rw [hn']; exact pne_main_err w.fl _ y' (Or.inl rfl) hy'
      · exact fun _ => pne_main_bakE w.fl _ (Or.inl rfl) _
    rw [fileSize_congr hfr]
    by_cases hnM : nM = w.fl.fileName
    · subst hnM
      cases hs : (writeLogBackground e w).2.mainSplit with
      | false => rw [hs] at hne; exact absurd rfl hne
      | true =>
        rw [A] at hs
        simp only [Bool.and_eq_true, decide_eq_true_eq] at hs
        exact hs.2
    · exact hfM hnM
  · intro hne
    have hfr : (writeLogBackground e w).1.disk ⟨w.fl.filePath, w.fl.fileName ++ ".err"⟩ =
        w.disk ⟨w.fl.filePath, w.fl.fileName ++ ".err"⟩ := by
      apply D
      · exact (pne_main_err w.fl _ _ (hxM' _) (Or.inl rfl)).symm
      · exact fun _ => pne_err_bakM w.fl _ (Or.inl rfl) _
      · exact fun h => hne (congrArg Path.name h).symm
      · exact fun _ => pne_err_bakE w.fl _ (Or.inl rfl) _
    rw [fileSize_congr hfr]
    by_cases hnE : yE ++ ".err" = w.fl.fileName ++ ".err"
    · cases hs : (writeLogBackground e w).2.errSplit with
      | false => rw [hs] at hne; exact absurd hnE hne
      | true =>
        have := (B hs).1
        rw [hnE] at this
        exact this
    · exact hfE hnE

/-- In every reachable state the queue holds at most its capacity, and while
the background goroutine is alive both handles are open, each on the
configured file or on the file of its base name. -/
theorem reachable_inv (w : World) (h : Reachable w) :
    (w.alive = true → ∃ nM nE, SinksOpen w nM nE) ∧
      w.fl.logChan.buf.length ≤ w.fl.logChan.cap := by
  induction h with
  | init MaxSize e d levelStr fp fn maxSize w h =>
    have := init_sinks _ _ _ _ _ _ _ _ h
    exact ⟨fun ha => ⟨_, _, this.1 ha⟩, this.2⟩
  | log w lv msg now c _ ih =>
    refine ⟨fun ha => ?_, log_length_le _ _ _ _ _ ih.2⟩
    obtain ⟨nM, nE, hS⟩ := ih.1 (by
      rw [← (log_static w lv msg now c).2.2.2.2.2.2.2.2]; exact ha)
    exact ⟨nM, nE, log_sinks _ _ _ _ _ _ _ hS⟩
  | step e w _ ih =>
    obtain ⟨-, -, -, -, h5, h6⟩ := step_static e w
    refine ⟨fun ha => ?_, ?_⟩
    · obtain ⟨nM, nE, hS⟩ := ih.1 (step_alive e w ha)
      exact ⟨_, _, step_sinks e w nM nE (step_alive e w ha) hS ha⟩
    · rw [h5]; exact le_trans h6 ih.2

/-- The rotations an iteration makes are decided by the size of the configured
file of the sink rotated, whatever else the iteration does. -/
theorem step_events (e : IterEnv) (w : World) (nM nE : String) (halive : w.alive = true)
    (hS : SinksOpen w nM nE) :
    ((writeLogBackground e w).2.mainSplit = true →
        w.fl.maxFileSize ≤ fileSize w.disk (mainPath w.fl)) ∧
      ((writeLogBackground e w).2.errSplit = true →
        w.fl.maxFileSize ≤ fileSize w.disk (errPath w.fl) ∧
        ∃ r, (writeLogBackground e w).2.popped = some r ∧ LogLevel.ERROR ≤ r.level) := by
  obtain ⟨A, B, -, -, -, -, -, -⟩ := step_core e w nM nE halive hS
  obtain ⟨-, -, -, -, -, -, hfM, hfE⟩ := hS
  constructor
  · intro hs
    by_cases hnM : nM = w.fl.fileName
    · subst hnM
      rw [A] at hs
      simp only [Bool.and_eq_true, decide_eq_true_eq] at hs
      exact hs.2
    · exact hfM hnM
  · intro hs
    refine ⟨?_, (B hs).2⟩
    by_cases hnE : nE = w.fl.fileName ++ ".err"
    · subst hnE
      exact (B hs).1
    · exact hfE hnE

theorem step_popped (e : IterEnv) (w : World) (r : logMsg)
    (h : (writeLogBackground e w).2.popped = some r) :
    w.fl.logChan.buf.head? = some r ∧ w.alive = true := by
  unfold writeLogBackground at h
  cases ha : w.alive with
  | false => simp [ha] at h
  | true =>
    simp only [ha, if_true] at h
    split at h
    · simp at h
    · split at h
      · simp at h
      · rename_i x rest hb
        rw [hb]
        split at h
        · split at h <;> simpa using h
        · simpa using h

/-! ### Loggers with a plain file name -/

theorem baseName_plain (s : String) (h : PlainName s) : baseName s = s :=
  baseName_of_noSlash s h

theorem plain_err (s : String) (h : PlainName s) : PlainName (s ++ ".err") := by
  unfold PlainName at h ⊢
  simp only [String.data_append, List.mem_append, not_or]
  exact ⟨h, err_noSlash⟩

theorem nextName_plain (c : Bool) (s : String) (h : PlainName s) : nextName c s = s := by
  cases c
  · rfl
  · exact baseName_plain s h

theorem sinks_of_opened (w : World) (h : Opened w) :
    SinksOpen w w.fl.fileName (w.fl.fileName ++ ".err") := by
  obtain ⟨h1, h2, h3, h4⟩ := h
  exact ⟨h1, h2, Or.inl rfl, Or.inl rfl, h3, h4, fun h => absurd rfl h, fun h => absurd rfl h⟩

theorem opened_of_sinks (w : World) (nM nE : String) (hp : PlainName w.fl.fileName)
    (h : SinksOpen w nM nE) : Opened w := by
  obtain ⟨h1, h2, h3, h4, h5, h6, -, -⟩ := h
  have hb := baseName_plain _ hp
  rw [hb] at h3 h4
  have hM : nM = w.fl.fileName := by rcases h3 with h | h <;> exact h
  have hE : nE = w.fl.fileName ++ ".err" := by rcases h4 with h | h <;> exact h
  subst hM hE
  exact ⟨h1, h2, h5, h6⟩

/-- While the background goroutine of a reachable logger with a plain file
name is alive, both handles are open on the configured files. -/
theorem reachable_opened (w : World) (h : Reachable w) (hp : PlainName w.fl.fileName)
    (ha : w.alive = true) : Opened w := by
  obtain ⟨nM, nE, hS⟩ := (reachable_inv w h).1 ha
  exact opened_of_sinks w nM nE hp hS

theorem step_opened (e : IterEnv) (w : World) (hp : PlainName w.fl.fileName)
    (halive : w.alive = true) (ho : Opened w)
    (h2 : (writeLogBackground e w).1.alive = true) : Opened (writeLogBackground e w).1 := by
  have hS := step_sinks e w _ _ halive (sinks_of_opened w ho) h2
  exact opened_of_sinks _ _ _ (by rw [(step_static e w).2.2.1]; exact hp) hS

/-- One iteration of an alive logger with a plain file name and open handles
in which no rotation fails: everything it does to the queue and to the four
files it can touch. -/
theorem step_ok (e : IterEnv) (w : World) (hp : PlainName w.fl.fileName)
    (halive : w.alive = true) (ho : Opened w) (hok : NoRotationFails e w) :
    (writeLogBackground e w).2.mainSplit =
        (e.mainStatOk && decide (w.fl.maxFileSize ≤ fileSize w.disk (mainPath w.fl))) ∧
      (writeLogBackground e w).1.alive = true ∧
      (writeLogBackground e w).1.fl.logChan.buf = w.fl.logChan.buf.tail ∧
      (writeLogBackground e w).2.popped = w.fl.logChan.buf.head? ∧
      (writeLogBackground e w).1.disk (mainPath w.fl) =
        some ((if (writeLogBackground e w).2.mainSplit = true then ""
            else content w.disk (mainPath w.fl)) ++
          (match w.fl.logChan.buf.head? with
            | none => ""
            | some r => Fprintf0 (logInfo r))) ∧
      ((writeLogBackground e w).2.mainSplit = true →
        (writeLogBackground e w).1.disk (newLogName w.fl w.fl.fileName e.mainSplit.now) =
          w.disk (mainPath w.fl)) ∧
      (writeLogBackground e w).1.disk (errPath w.fl) =
        (match w.fl.logChan.buf.head? with
          | none => w.disk (errPath w.fl)
          | some r =>
            if LogLevel.ERROR ≤ r.level then
              some ((if (writeLogBackground e w).2.errSplit = true then ""
                  else content w.disk (errPath w.fl)) ++ Fprintf0 (logInfo r))
            else w.disk (errPath w.fl)) ∧
      ((writeLogBackground e w).2.errSplit = true →
        (writeLogBackground e w).1.disk
            (newLogName w.fl (w.fl.fileName ++ ".err") e.errSplit.now) =
          w.disk (errPath w.fl)) := by
  obtain ⟨A, -, -, -, -, -, -, OK⟩ := step_core e w _ _ halive (sinks_of_opened w ho)
  obtain ⟨o1, o2, o3, o4, o5, o6, o7⟩ := OK hok
  rw [nextName_plain _ _ hp] at o4
  rw [nextName_plain _ _ (plain_err _ hp)] at o6
  rw [baseName_plain _ hp] at o5 o7
  exact ⟨A, o1, o2, o3, o4, o5, o6, o7⟩

/-- An iteration of a logger with a plain file name leaves every backup of the
main file alone, except the one it makes itself. -/
theorem step_frame (e : IterEnv) (w : World) (hp : PlainName w.fl.fileName)
    (h : w.alive = true → Opened w) (t : Time)
    (hq : (writeLogBackground e w).2.mainSplit = true →
      newLogName w.fl w.fl.fileName t ≠ newLogName w.fl w.fl.fileName e.mainSplit.now) :
    (writeLogBackground e w).1.disk (newLogName w.fl w.fl.fileName t) =
      w.disk (newLogName w.fl w.fl.fileName t) := by
  cases halive : w.alive with
  | false => rw [step_dead e w halive]
  | true =>
    obtain ⟨-, -, -, D, -, -, -, -⟩ := step_core e w _ _ halive (sinks_of_opened w (h halive))
    have hb := baseName_plain _ hp
    have hbk : ∀ s, newLogName w.fl w.fl.fileName s = newLogName w.fl (baseName w.fl.fileName) s :=
      fun s => by rw [hb]
    apply D
    · rw [nextName_plain _ _ hp, hbk]
      exact (pne_main_bakM w.fl _ (Or.inl rfl) _).symm
    · intro hs
      rw [← hbk]
      exact hq hs
    · rw [nextName_plain _ _ (plain_err _ hp), hbk]
      exact (pne_err_bakM w.fl _ (Or.inl rfl) _).symm
    · intro _
      rw [hbk]
      exact pne_bakM_bakE w.fl _ _

theorem mainBackups_cons (e : IterEnv) (es : List IterEnv) (w : World)
    (hp : PlainName w.fl.fileName) (h : w.alive = true → Opened w) :
    mainBackups (e :: es) w =
      (if (writeLogBackground e w).2.mainSplit then
          [newLogName w.fl w.fl.fileName e.mainSplit.now] else []) ++
        mainBackups es (writeLogBackground e w).1 := by
  cases halive : w.alive with
  | false => simp [mainBackups, step_dead e w halive]
  | true =>
    have ho := h halive
    simp only [mainBackups, mainSink, ho.1, mainPath, baseName_plain _ hp]

theorem step_inv (e : IterEnv) (w : World) (hp : PlainName w.fl.fileName)
    (h : w.alive = true → Opened w) :
    (writeLogBackground e w).1.alive = true → Opened (writeLogBackground e w).1 :=
  fun ha => step_opened e w hp (step_alive e w ha) (h (step_alive e w ha)) ha

/-- A run leaves alone every backup of the main file that it does not make. -/
theorem drain_frame (es : List IterEnv) (w : World) (hp : PlainName w.fl.fileName)
    (h : w.alive = true → Opened w) (t : Time)
    (hq : newLogName w.fl w.fl.fileName t ∉ mainBackups es w) :
    (drain es w).disk (newLogName w.fl w.fl.fileName t) =
      w.disk (newLogName w.fl w.fl.fileName t) := by
  induction es generalizing w with
  | nil => rfl
  | cons e es ih =>
    obtain ⟨-, s2, s3, -, -, -⟩ := step_static e w
    rw [mainBackups_cons e es w hp h] at hq
    simp only [List.mem_append, not_or] at hq
    have h1 := ih (writeLogBackground e w).1 (by rw [s3]; exact hp) (step_inv e w hp h) (by
      rw [newLogName, s2, s3]; exact hq.2)
    have h2 := step_frame e w hp h t (by
      intro hs heq
      apply hq.1
      simp [hs, heq])
    simp only [drain]
    rw [← h2]
    simpa [newLogName, s2, s3] using h1

theorem readAll_append (d : Disk) (ps qs : List Path) :
    readAll d (ps ++ qs) = readAll d ps ++ readAll d qs := by
  induction ps with
  | nil => simp [readAll]
  | cons p ps ih => simp [readAll, ih, String.append_assoc]

theorem mainPath_step (e : IterEnv) (w : World) :
    mainPath (writeLogBackground e w).1.fl = mainPath w.fl := by
  obtain ⟨-, s2, s3, -, -, -⟩ := step_static e w
  simp [mainPath, s2, s3]

/-- A run without a failing rotation whose backups all get different names
moves the records at the front of the queue, in order, into the main file and
its backups. -/
theorem drain_delivers (es : List IterEnv) (w : World) (hp : PlainName w.fl.fileName)
    (halive : w.alive = true)
    (ho : Opened w) (hok : RunOk es w) (hnd : (mainBackups es w).Nodup)
    (hlen : es.length ≤ w.fl.logChan.buf.length) :
    readAll (drain es w).disk (mainBackups es w ++ [mainPath w.fl]) =
        content w.disk (mainPath w.fl) ++
          concat ((w.fl.logChan.buf.take es.length).map (fun r => Fprintf0 (logInfo r))) ∧
      (drain es w).fl.logChan.buf = w.fl.logChan.buf.drop es.length ∧
      (drain es w).alive = true := by
  induction es generalizing w with
  | nil => simp [readAll, concat, drain, mainBackups, halive]
  | cons e es ih =>
    obtain ⟨hok1, hok2⟩ := hok
    obtain ⟨S1, S2, S3, S4, S5, S6, -, -⟩ := step_ok e w hp halive ho hok1
    obtain ⟨-, s2, s3, -, -, -⟩ := step_static e w
    have hp1 : PlainName (writeLogBackground e w).1.fl.fileName := by rw [s3]; exact hp
    have ho1 : Opened (writeLogBackground e w).1 := step_opened e w hp halive ho S2
    cases hb : w.fl.logChan.buf with
    | nil => simp [hb] at hlen
    | cons r rest =>
      rw [hb] at S3 S5 hlen
      simp only [List.tail_cons, List.head?_cons] at S3 S5
      rw [mainBackups_cons e es w hp (fun _ => ho)] at hnd ⊢
      have hlen1 : es.length ≤ (writeLogBackground e w).1.fl.logChan.buf.length := by
        rw [S3]; simpa using hlen
      have hnd1 : (mainBackups es (writeLogBackground e w).1).Nodup :=
        (List.nodup_append.mp hnd).2.1
      obtain ⟨I1, I2, I3⟩ := ih (writeLogBackground e w).1 hp1 S2 ho1 hok2 hnd1 hlen1
      rw [mainPath_step, S3] at I1
      rw [S3] at I2
      refine ⟨?_, ?_, ?_⟩
      · simp only [drain, List.length_cons, List.take_succ_cons, List.map_cons, concat]
        cases hs : (writeLogBackground e w).2.mainSplit with
        | false =>
          simp only [hs, Bool.false_eq_true, if_false, List.nil_append] at S5 hnd ⊢
          rw [I1, content_of_eq_some S5, String.append_assoc]
        | true =>
          simp only [hs, if_true] at S5 hnd ⊢
          change content _ (newLogName w.fl w.fl.fileName e.mainSplit.now) ++
            readAll _ (mainBackups es (writeLogBackground e w).1 ++ [mainPath w.fl]) = _
          rw [I1, content_of_eq_some S5]
          have hnot : newLogName w.fl w.fl.fileName e.mainSplit.now ∉
              mainBackups es (writeLogBackground e w).1 :=
            (List.nodup_cons.mp (by simpa using hnd)).1
          have hfr := drain_frame es (writeLogBackground e w).1 hp1 (fun _ => ho1)
            e.mainSplit.now (by rw [newLogName, s2, s3]; exact hnot)
          rw [newLogName, s2, s3] at hfr
          have hbk := S6 hs
          simp only [newLogName] at hbk
          simp only [content, newLogName, hfr, hbk]
          simp
      · simp only [drain, List.length_cons, List.drop_succ_cons]
        exact I2
      · exact I3

theorem log_enabled (w : World) (lv : LogLevel) (msg : String) (now : Time) (c : CallSite)
    (hlv : w.fl.level ≤ lv) (hfit : w.fl.logChan.buf.length < w.fl.logChan.cap) :
    (log w lv msg now c).fl.logChan.buf =
      w.fl.logChan.buf ++ [(Call.mk lv msg now c).record] := by
  simp [log, enable, hlv, Chan.trySend, hfit, Call.record]

/-- Calls at enabled levels that fit in the queue are all queued, in the order
they are made, and change nothing else. -/
theorem logAll_spec (calls : List Call) (w : World) (hlv : ∀ c ∈ calls, w.fl.level ≤ c.lv)
    (hfit : w.fl.logChan.buf.length + calls.length ≤ w.fl.logChan.cap) :
    (logAll calls w).fl.logChan.buf = w.fl.logChan.buf ++ calls.map Call.record ∧
      (logAll calls w).disk = w.disk ∧ (logAll calls w).alive = w.alive ∧
      (logAll calls w).fl.filePath = w.fl.filePath ∧
      (logAll calls w).fl.fileName = w.fl.fileName ∧
      (logAll calls w).fl.maxFileSize = w.fl.maxFileSize := by
  induction calls generalizing w with
  | nil => simp [logAll]
  | cons c cs ih =>
    obtain ⟨h1, h2, h3, h4, h5, h6, h7, h8, h9⟩ := log_static w c.lv c.msg c.now c.site
    simp only [List.length_cons] at hfit
    have hb := log_enabled w c.lv c.msg c.now c.site (hlv c (List.mem_cons_self _ _)) (by omega)
    have := ih (log w c.lv c.msg c.now c.site)
      (fun x hx => by rw [h1]; exact hlv x (List.mem_cons_of_mem _ hx))
      (by rw [hb, h7]; simp; omega)
    simp only [logAll]
    rw [this.1, this.2.1, this.2.2.1, this.2.2.2.1, this.2.2.2.2.1, this.2.2.2.2.2, hb, h8, h9,
      h2, h3, h4]
    simp

theorem logAll_reachable (calls : List Call) (w : World) (h : Reachable w) :
    Reachable (logAll calls w) := by
  induction calls generalizing w with
  | nil => exact h
  | cons c cs ih => exact ih _ (Reachable.log w c.lv c.msg c.now c.site h)

/-- An iteration that finds a record below ERROR (or none) at the head of the
queue does not rotate the error file. -/
theorem no_err_rotation (e : IterEnv) (w : World) (nM nE : String) (halive : w.alive = true)
    (hS : SinksOpen w nM nE)
    (h : ∀ r, w.fl.logChan.buf.head? = some r → ¬ (LogLevel.ERROR ≤ r.level)) :
    (writeLogBackground e w).2.errSplit = false := by
  cases hs : (writeLogBackground e w).2.errSplit with
  | false => rfl
  | true =>
    obtain ⟨-, r, hr, hl⟩ := (step_events e w nM nE halive hS).2 hs
    exact absurd hl (h r (step_popped e w r hr).1)

theorem parseLogLevel_INFO : parseLogLevel "INFO" = .ok .INFO := rfl

/-- The logger `NewFileLogger` returns when both files open and there was no
main file before. -/
theorem init_fresh (MaxSize : Nat) (d : Disk) (fp fn : String) (maxSize : Int) (w0 : World)
    (hd : d ⟨fp, fn⟩ = none)
    (h : NewFileLogger MaxSize ⟨true, true⟩ d "INFO" fp fn maxSize = .ok w0) :
    w0.alive = true ∧ w0.fl.level = .INFO ∧ w0.fl.filePath = fp ∧ w0.fl.fileName = fn ∧
      w0.fl.maxFileSize = maxSize ∧ w0.fl.logChan.buf = [] ∧ w0.fl.logChan.cap = MaxSize ∧
      w0.disk ⟨fp, fn⟩ = some "" := by
  unfold NewFileLogger at h
  simp only [parseLogLevel_INFO, Except.ok.injEq] at h
  subst h
  have hne : (⟨fp, fn⟩ : Path) ≠ ⟨fp, fn ++ ".err"⟩ := by
    apply path_ne_of_name
    intro h
    have h2 : fn ++ "" = fn ++ ".err" := by simpa using h
    rw [str_append_cancel] at h2
    exact absurd h2 (by decide)
  cases h2 : d ⟨fp, fn ++ ".err"⟩ <;>
    simp [initFile, OpenFile, Disk.set_apply, hd, h2, hne, hne.symm]

/-! ### When a rotation fails -/

/-- A rotation block that does not call `splitFile` does not fail. -/
theorem rotate_flags (f : FileLogger) (statOk : Bool) (e : SplitEnv) (d : Disk)
    (file : Option File) (h : (rotateIfNeeded f statOk e d file).2.2.1 = false) :
    (rotateIfNeeded f statOk e d file).2.2.2 = false := by
  unfold rotateIfNeeded at h ⊢
  split
  · rename_i hc
    rw [if_pos hc] at h
    split at h <;> simp at h
  · rfl

/-- A rotation whose system calls are let through, of a handle whose base name
names a file of the directory, does not fail. -/
theorem rotate_allOk (f : FileLogger) (statOk : Bool) (e : SplitEnv) (d : Disk) (n : String)
    (hall : e.allOk) (hex : (d ⟨f.filePath, baseName n⟩).isSome = true) :
    (rotateIfNeeded f statOk e d (some ⟨⟨f.filePath, n⟩⟩)).2.2.2 = false := by
  obtain ⟨h1, h2, h3⟩ := hall
  obtain ⟨c, hc⟩ := Option.isSome_iff_exists.mp hex
  unfold rotateIfNeeded
  split
  · simp [splitFile, renameSucceeds, Stat, Rename, OpenFile, h1, h2, h3, hc]
  · rfl

/-- The flags of an iteration are those of its rotation block for the main
file. -/
theorem step_main_flags (e : IterEnv) (w : World) (halive : w.alive = true) :
    (writeLogBackground e w).2.mainSplit =
        (rotateIfNeeded w.fl e.mainStatOk e.mainSplit w.disk w.fl.fileObj).2.2.1 ∧
      (writeLogBackground e w).2.mainFailed =
        (rotateIfNeeded w.fl e.mainStatOk e.mainSplit w.disk w.fl.fileObj).2.2.2 := by
  unfold writeLogBackground
  simp only [halive, if_true]
  split
  · exact ⟨rfl, rfl⟩
  · split
    · exact ⟨rfl, rfl⟩
    · split
      · split <;> exact ⟨rfl, rfl⟩
      · exact ⟨rfl, rfl⟩

/-- An iteration that does not call `splitFile` on the main file has no failed
rotation of the main file. -/
theorem main_ok_of_no_split (e : IterEnv) (w : World)
    (h : (writeLogBackground e w).2.mainSplit = false) :
    (writeLogBackground e w).2.mainFailed = false := by
  cases halive : w.alive with
  | false => rw [step_dead e w halive]
  | true =>
    obtain ⟨h1, h2⟩ := step_main_flags e w halive
    rw [h2]
    rw [h1] at h
    exact rotate_flags _ _ _ _ _ h

/-- An iteration that does not call `splitFile` on the error file has no
failed rotation of the error file. -/
theorem err_ok_of_no_split (e : IterEnv) (w : World)
    (h : (writeLogBackground e w).2.errSplit = false) :
    (writeLogBackground e w).2.errFailed = false := by
  cases halive : w.alive with
  | false => rw [step_dead e w halive]
  | true =>
    unfold writeLogBackground at h ⊢
    simp only [halive, if_true] at h ⊢
    generalize rotateIfNeeded w.fl e.mainStatOk e.mainSplit w.disk w.fl.fileObj = m at h ⊢
    obtain ⟨md, mh, mc, mf⟩ := m
    cases mh with
    | none => rfl
    | some fo =>
      simp only at h ⊢
      generalize w.fl.logChan.buf = buf at h ⊢
      cases buf with
      | nil => rfl
      | cons r rest =>
        simp only at h ⊢
        by_cases hl : LogLevel.ERROR ≤ r.level
        · simp only [hl, if_true] at h ⊢
          have key := rotate_flags w.fl e.errStatOk e.errSplit (Fprintf md fo (logInfo r))
            w.fl.errFileObj
          generalize rotateIfNeeded w.fl e.errStatOk e.errSplit (Fprintf md fo (logInfo r))
            w.fl.errFileObj = x at h key ⊢
          obtain ⟨xd, xh, xc, xf⟩ := x
          cases xh with
          | none => exact key h
          | some eo => exact key h
        · simp only [hl, if_false]

/-- An iteration of a logger with a plain file name and open handles whose
system calls for the rotation of the main file are let through has no failed
rotation of the main file. -/
theorem main_ok_of_allOk (e : IterEnv) (w : World) (hp : PlainName w.fl.fileName)
    (halive : w.alive = true) (ho : Opened w) (hall : e.mainSplit.allOk) :
    (writeLogBackground e w).2.mainFailed = false := by
  rw [(step_main_flags e w halive).2, ho.1]
  apply rotate_allOk _ _ _ _ _ hall
  rw [baseName_plain _ hp]
  exact ho.2.2.1

/-! ### The files behind the two handles -/

theorem mainSink_eq (w : World) (nM nE : String) (hS : SinksOpen w nM nE) :
    mainSink w = ⟨w.fl.filePath, nM⟩ := by
  simp only [mainSink, hS.1]

theorem errSink_eq (w : World) (nM nE : String) (hS : SinksOpen w nM nE) :
    errSink w = ⟨w.fl.filePath, nE⟩ := by
  simp only [errSink, hS.2.1]

theorem mainSink_of_opened (w : World) (h : Opened w) : mainSink w = mainPath w.fl := by
  simp only [mainSink, h.1]

theorem errSink_of_opened (w : World) (h : Opened w) : errSink w = errPath w.fl := by
  simp only [errSink, h.2.1]

/-- An iteration that takes a record below ERROR leaves the configured error
file as it was, wherever the handles are. -/
theorem step_err_untouched (e : IterEnv) (w : World) (nM nE : String) (halive : w.alive = true)
    (hS : SinksOpen w nM nE) (x : logMsg) (hpop : (writeLogBackground e w).2.popped = some x)
    (hl : ¬ (LogLevel.ERROR ≤ x.level)) :
    (writeLogBackground e w).1.disk (errPath w.fl) = w.disk (errPath w.fl) := by
  obtain ⟨-, -, -, D, -, -, G, -⟩ := step_core e w nM nE halive hS
  obtain ⟨g1, -, g3⟩ := G x hpop hl
  obtain ⟨-, -, hxM, hxE, -, -, -, -⟩ := hS
  by_cases hq : errPath w.fl = ⟨w.fl.filePath, nE⟩
  · rw [hq]; exact g3
  · have hxM' : ∀ c, nextName c nM = w.fl.fileName ∨ nextName c nM = baseName w.fl.fileName := by
      intro c
      cases c
      · exact hxM
      · right
        rw [nextName_true]
        rcases hxM with rfl | rfl
        · rfl
        · exact baseName_idem _
    apply D
    · exact (pne_main_err w.fl _ _ (hxM' _) (Or.inl rfl)).symm
    · intro _
      exact pne_err_bakM w.fl _ (Or.inl rfl) _
    · rw [g1, nextName_false]
      exact hq
    · intro h
      rw [g1] at h
      exact absurd h (by decide)

/-! ### Lines without a percent sign -/

theorem doPrintf_of_no_percent (fuel : Nat) (cs : List Char) (h : '%' ∉ cs) :
    doPrintf (fuel + 1) cs = cs := by
  have h1 : cs.takeWhile (fun c => c != '%') = cs := by
    rw [List.takeWhile_eq_self_iff]
    intro c hc
    simp only [bne_iff_ne, ne_eq]
    rintro rfl
    exact h hc
  have h2 : cs.dropWhile (fun c => c != '%') = [] := by
    rw [List.dropWhile_eq_nil_iff]
    intro c hc
    simp only [bne_iff_ne, ne_eq]
    rintro rfl
    exact h hc
  simp only [doPrintf, h1, h2]

theorem Fprintf0_of_no_percent (s : String) (h : '%' ∉ s.data) : Fprintf0 s = s := by
  unfold Fprintf0
  rw [doPrintf_of_no_percent _ _ h]


/-! ### The budget of `doPrintf` is enough -/

theorem parsenum_length (num : Nat) (isnum : Bool) (cs : List Char) :
    (parsenum num isnum cs).2.length ≤ cs.length := by
  induction cs generalizing num isnum with
  | nil => simp [parsenum]
  | cons c cs ih =>
    unfold parsenum
    split
    · split
      · simp
      · exact le_trans (ih _ _) (Nat.le_succ _)
    · simp

theorem argNumber_length (cs : List Char) (good : Bool) :
    (argNumber cs good).1.length ≤ cs.length := by
  unfold argNumber
  split
  · simp only [List.length_drop]; omega
  · simp

theorem widthStage_length (cs : List Char) (a g : Bool) :
    (widthStage cs a g).2.1.length ≤ cs.length := by
  unfold widthStage
  split
  · simp
  · exact parsenum_length _ _ _

theorem precStage_length (cs : List Char) (a g : Bool) :
    (precStage cs a g).2.1.length ≤ cs.length := by
  unfold precStage
  split
  · rename_i t
    have h1 := argNumber_length t (g && !a)
    simp only
    split
    · rename_i t2 heq
      rw [heq] at h1
      simp only [List.length_cons] at h1 ⊢
      omega
    · have h2 := parsenum_length 0 false (argNumber t (g && !a)).1
      simp only [List.length_cons]
      omega
  · simp

theorem verbStage_length (cs : List Char) (g : Bool) :
    (verbStage cs g).2.length ≤ cs.length := by
  unfold verbStage
  split
  · simp
  · split
    · simp
    · split <;> simp

theorem doVerb_length (cs : List Char) : (doVerb cs).2.length ≤ cs.length := by
  unfold doVerb
  simp only
  have h0 : (cs.dropWhile isFlag).length ≤ cs.length := (List.dropWhile_sublist _).length_le
  have h1 := argNumber_length (cs.dropWhile isFlag) true
  have h2 := widthStage_length (argNumber (cs.dropWhile isFlag) true).1
    (argNumber (cs.dropWhile isFlag) true).2.1 (argNumber (cs.dropWhile isFlag) true).2.2
  generalize widthStage (argNumber (cs.dropWhile isFlag) true).1
    (argNumber (cs.dropWhile isFlag) true).2.1 (argNumber (cs.dropWhile isFlag) true).2.2 = w
    at h2 ⊢
  have h3 := precStage_length w.2.1 w.2.2.1 w.2.2.2
  generalize precStage w.2.1 w.2.2.1 w.2.2.2 = p at h3 ⊢
  have h5 := verbStage_length
    (if p.2.2.1 = true then (p.2.1, p.2.2.1, p.2.2.2) else argNumber p.2.1 p.2.2.2).1
    (if p.2.2.1 = true then (p.2.1, p.2.2.1, p.2.2.2) else argNumber p.2.1 p.2.2.2).2.2
  have h4 : (if p.2.2.1 = true then (p.2.1, p.2.2.1, p.2.2.2)
      else argNumber p.2.1 p.2.2.2).1.length ≤ p.2.1.length := by
    split
    · simp
    · exact argNumber_length _ _
  omega

/-- The result of `doPrintf` does not depend on the budget once the budget
exceeds the length of the format: the budget never runs out. -/
theorem doPrintf_fuel (n : Nat) (cs : List Char) (f1 f2 : Nat) (hn : cs.length ≤ n)
    (h1 : cs.length < f1) (h2 : cs.length < f2) : doPrintf f1 cs = doPrintf f2 cs := by
  induction n generalizing cs f1 f2 with
  | zero =>
    have : cs = [] := List.length_eq_zero.mp (Nat.le_zero.mp hn)
    subst this
    obtain ⟨g1, rfl⟩ := Nat.exists_eq_succ_of_ne_zero (Nat.ne_of_gt h1)
    obtain ⟨g2, rfl⟩ := Nat.exists_eq_succ_of_ne_zero (Nat.ne_of_gt h2)
    simp [doPrintf]
  | succ n ih =>
    obtain ⟨g1, rfl⟩ := Nat.exists_eq_succ_of_ne_zero (Nat.ne_of_gt (Nat.zero_lt_of_lt h1))
    obtain ⟨g2, rfl⟩ := Nat.exists_eq_succ_of_ne_zero (Nat.ne_of_gt (Nat.zero_lt_of_lt h2))
    simp only [doPrintf]
    have hd : (cs.dropWhile (fun c => c != '%')).length ≤ cs.length :=
      (List.dropWhile_sublist _).length_le
    cases hrest : cs.dropWhile (fun c => c != '%') with
    | nil => rfl
    | cons c rest =>
      rw [hrest] at hd
      simp only [List.length_cons] at hd
      have hv := doVerb_length rest
      simp only
      rw [ih (doVerb rest).2 g1 g2 (by omega) (by omega) (by omega)]


/-! ## The claims -/

set_option maxRecDepth 100000

/-- C1: a call of `log` at a level strictly below the minimum level of the
logger changes nothing, neither the queue nor the disk, and every later run of
the background loop goes as if the call had not been made; so it is for
`Debug`, `Info`, `Warning`, `Error` and `Fatal` when their level is below the
minimum. -/
theorem log_below_minimum_level (w : World) (lv : LogLevel) (msg : String) (now : Time)
    (c : CallSite) (h : lv < w.fl.level) :
    log w lv msg now c = w ∧
      (log w lv msg now c).fl.logChan.buf = w.fl.logChan.buf ∧
      (log w lv msg now c).disk = w.disk ∧
      (∀ es, (drain es (log w lv msg now c)).disk = (drain es w).disk) ∧
      (lv = .DEBUG → Debug w msg now c = w) ∧
      (lv = .INFO → Info w msg now c = w) ∧
      (lv = .WARNING → Warning w msg now c = w) ∧
      (lv = .ERROR → Error w msg now c = w) ∧
      (lv = .FATAL → Fatal w msg now c = w) := by
  have hlog : log w lv msg now c = w := by
    have hn : ¬ (w.fl.level ≤ lv) := Nat.not_le.mpr h
    simp [log, enable, hn]
  refine ⟨hlog, by rw [hlog], by rw [hlog], fun es => by rw [hlog], ?_, ?_, ?_, ?_, ?_⟩ <;>
    · intro hl
      subst hl
      exact hlog

/-- Witness for C1: `Debug("ignored")` on a logger whose minimum level is
INFO. -/
theorem log_below_minimum_level_witness :
    LogLevel.DEBUG < (exWorld initialMaxSize .INFO 100).fl.level ∧
      Debug (exWorld initialMaxSize .INFO 100) "ignored" exTime exSite = exWorld initialMaxSize .INFO 100 :=
  ⟨by decide,
    (log_below_minimum_level (exWorld initialMaxSize .INFO 100) .DEBUG "ignored" exTime exSite
      (by decide)).2.2.2.2.1 rfl⟩

/-- C2: in every reachable state the queue holds at most its capacity, a call
of `log` and an iteration of the background loop leave the capacity as it is,
the queue after a call of `log` holds at most the capacity, and a call made
while the queue is full returns with the state unchanged, so that no later run
of the background loop writes the dropped record anywhere. -/
theorem queue_never_exceeds_capacity (w : World) (hw : Reachable w) (lv : LogLevel)
    (msg : String) (now : Time) (c : CallSite) :
    w.fl.logChan.buf.length ≤ w.fl.logChan.cap ∧
      (log w lv msg now c).fl.logChan.cap = w.fl.logChan.cap ∧
      (∀ e, (writeLogBackground e w).1.fl.logChan.cap = w.fl.logChan.cap) ∧
      (log w lv msg now c).fl.logChan.buf.length ≤ w.fl.logChan.cap ∧
      (w.fl.logChan.buf.length = w.fl.logChan.cap →
        log w lv msg now c = w ∧ ∀ es, drain es (log w lv msg now c) = drain es w) := by
  have hinv := (reachable_inv w hw).2
  have hcap := (log_static w lv msg now c).2.2.2.2.2.2.1
  refine ⟨hinv, hcap, fun e => (step_static e w).2.2.2.2.1, ?_, ?_⟩
  · rw [← hcap]; exact log_length_le w lv msg now c hinv
  · intro hfull
    have hlog : log w lv msg now c = w := by
      unfold log Chan.trySend
      split
      · simp [hfull]
      · rfl
    exact ⟨hlog, fun es => by rw [hlog]⟩

/-- Witness for C2: a logger with a channel of capacity one that holds one
record; the next call is dropped. -/
theorem queue_never_exceeds_capacity_witness :
    (Info (exWorld 1 .INFO 100) "kept" exTime exSite).fl.logChan.buf.length =
        (Info (exWorld 1 .INFO 100) "kept" exTime exSite).fl.logChan.cap ∧
      log (Info (exWorld 1 .INFO 100) "kept" exTime exSite) .ERROR "dropped" exTime exSite =
        Info (exWorld 1 .INFO 100) "kept" exTime exSite :=
  ⟨by decide,
    ((queue_never_exceeds_capacity (Info (exWorld 1 .INFO 100) "kept" exTime exSite)
      (Reachable.log _ _ _ _ _
        (Reachable.init 1 ⟨true, true⟩ exDisk "INFO" "logs" "app.log" 100 _ rfl))
      .ERROR "dropped" exTime exSite).2.2.2.2 (by decide)).1⟩

/-- C3, as stated, fails: three `Info` calls fit in the queue and three
iterations follow in which no rotation fails; the second and the third
iteration rotate the main file within the same millisecond, both backups get
the same name, and the second replaces the first.  The backup holds the second
line, the main file the third, and the first line is in no file.  For a logger
whose file name has a directory part (`sub/app.log`, next to an unrelated
`logs/app.log`) the rotation renames the unrelated file and the second line
goes where that file was, so the main file and the backup made do not hold the
two lines of two calls.  (And a message with a percent sign does not reach the
file as it was rendered.) -/
theorem lines_delivered_counterexample :
    (∀ c ∈ exCalls, (exWorld initialMaxSize .INFO 10).fl.level ≤ c.lv) ∧
      exCalls.length ≤ (exWorld initialMaxSize .INFO 10).fl.logChan.cap ∧
      RunOk [okIter exTime, okIter exTime, okIter exTimeSoon] threeCalls ∧
      exTime.millisecond = exTimeSoon.millisecond ∧
      mainBackups [okIter exTime, okIter exTime, okIter exTimeSoon] threeCalls =
        [exBackup, exBackup] ∧
      (drain [okIter exTime, okIter exTime, okIter exTimeSoon] threeCalls).disk exBackup =
        some (exLine "second") ∧
      (drain [okIter exTime, okIter exTime, okIter exTimeSoon] threeCalls).disk exMain =
        some (exLine "third") ∧
      readAll (drain [okIter exTime, okIter exTime, okIter exTimeSoon] threeCalls).disk
          (mainBackups [okIter exTime, okIter exTime, okIter exTimeSoon] threeCalls ++
            [exMain]) ≠
        content (exWorld initialMaxSize .INFO 10).disk exMain ++
          concat (exCalls.map fun c => logInfo c.record) ∧
      RunOk [okIter exTime, okIter exTimeNext] (logAll subCalls (subWorld 10)) ∧
      (drain [okIter exTime, okIter exTimeNext] (logAll subCalls (subWorld 10))).disk subMain =
        some (exLine "first") ∧
      (drain [okIter exTime, okIter exTimeNext] (logAll subCalls (subWorld 10))).disk otherFile =
        some (exLine "second") ∧
      readAll (drain [okIter exTime, okIter exTimeNext] (logAll subCalls (subWorld 10))).disk
          (mainBackups [okIter exTime, okIter exTimeNext] (logAll subCalls (subWorld 10)) ++
            [subMain]) =
        "unrelated\n" ++ exLine "first" ∧
      (writeLogBackground (okIter exTime)
        (Info (exWorld initialMaxSize .INFO 1000) "cpu 90% busy" exTime exSite)).1.disk exMain =
        some "[2021-01-18 20:23:05] [INFO] [main:main.go:12]cpu 90%!b(MISSING)usy\n" := by
  decide

/-- C3, amended: start from a reachable state with a running background loop,
an empty queue and a file name without a directory part; make n calls at
enabled levels that fit in the queue, none with a percent sign in its text,
then run n iterations in which no rotation fails and no two rotations of the
main file give their backups the same name.  Then the backups made on the way,
in rotation order, followed by the main file hold what the main file held
before followed by exactly the n lines of the calls, in call order, and the
queue is empty again. -/
theorem lines_delivered_in_order (w : World) (hw : Reachable w) (halive : w.alive = true)
    (hplain : PlainName w.fl.fileName)
    (hempty : w.fl.logChan.buf = []) (calls : List Call)
    (hlv : ∀ c ∈ calls, w.fl.level ≤ c.lv) (hfit : calls.length ≤ w.fl.logChan.cap)
    (es : List IterEnv) (hlen : es.length = calls.length)
    (hok : RunOk es (logAll calls w))
    (hnd : (mainBackups es (logAll calls w)).Nodup)
    (hpct : ∀ c ∈ calls, '%' ∉ (logInfo c.record).data) :
    readAll (drain es (logAll calls w)).disk
        (mainBackups es (logAll calls w) ++ [mainPath w.fl]) =
        content w.disk (mainPath w.fl) ++ concat (calls.map fun c => logInfo c.record) ∧
      (drain es (logAll calls w)).fl.logChan.buf = [] := by
  obtain ⟨a1, a2, a3, a4, a5, -⟩ := logAll_spec calls w hlv (by rw [hempty]; simpa using hfit)
  have hwA := logAll_reachable calls w hw
  have aliveA : (logAll calls w).alive = true := by rw [a3, halive]
  have hpA : PlainName (logAll calls w).fl.fileName := by rw [a5]; exact hplain
  have hoA : Opened (logAll calls w) := reachable_opened _ hwA hpA aliveA
  rw [hempty, List.nil_append] at a1
  obtain ⟨D1, D2, -⟩ := drain_delivers es (logAll calls w) hpA aliveA hoA hok hnd
    (by rw [a1, List.length_map, hlen])
  have hP : mainPath (logAll calls w).fl = mainPath w.fl := by simp [mainPath, a4, a5]
  have htake : List.take es.length (List.map Call.record calls) = List.map Call.record calls := by
    rw [hlen]; exact List.take_of_length_le (by simp)
  have hmap : List.map (fun r => Fprintf0 (logInfo r)) (List.map Call.record calls) =
      calls.map fun c => logInfo c.record := by
    rw [List.map_map]
    apply List.map_congr_left
    intro c hc
    exact Fprintf0_of_no_percent _ (hpct c hc)
  rw [hP, a1, a2, htake, hmap] at D1
  refine ⟨D1, ?_⟩
  rw [D2, a1, hlen]
  exact List.drop_of_length_le (by simp)

/-- Witness for C3 amended: three `Info` calls on a logger of file name
`app.log`, three iterations with two rotations whose backups get different
names; both backups and the main file together hold the three lines in call
order. -/
theorem lines_delivered_in_order_witness :
    RunOk [okIter exTime, okIter exTime, okIter exTimeNext] threeCalls ∧
      mainBackups [okIter exTime, okIter exTime, okIter exTimeNext] threeCalls =
        [exBackup, ⟨"logs", "app.log.bak20210118202306000"⟩] ∧
      readAll (drain [okIter exTime, okIter exTime, okIter exTimeNext] threeCalls).disk
          (mainBackups [okIter exTime, okIter exTime, okIter exTimeNext] threeCalls ++
            [exMain]) =
        exLine "first" ++ exLine "second" ++ exLine "third" :=
  ⟨by decide, by decide,
    (lines_delivered_in_order (exWorld initialMaxSize .INFO 10)
      (Reachable.init initialMaxSize ⟨true, true⟩ exDisk "INFO" "logs" "app.log" 10 _ rfl) rfl
      (by decide) rfl exCalls
      (by decide) (by decide) [okIter exTime, okIter exTime, okIter exTimeNext] rfl
      (by decide) (by decide) (by decide)).1.trans (by decide)⟩

/-- C4: when an iteration in which no rotation fails takes a record from the
queue, it appends the same text to the file the main handle is open on and,
for a record of level ERROR or higher, to the file the error handle is open
on; for a record below ERROR the error handle stays where it was, and the file
it is open on and the configured error file are left as they were.  For a
logger whose file name has no directory part the two handles are open on the
configured main file and error file, before and after the iteration. -/
theorem error_file_mirrors_main_file (e : IterEnv) (w : World) (hw : Reachable w)
    (hok : NoRotationFails e w) (r : logMsg)
    (hpop : (writeLogBackground e w).2.popped = some r) :
    (writeLogBackground e w).1.disk (mainSink (writeLogBackground e w).1) =
        some ((if (writeLogBackground e w).2.mainSplit = true then ""
          else content w.disk (mainSink w)) ++ Fprintf0 (logInfo r)) ∧
      (LogLevel.ERROR ≤ r.level →
        (writeLogBackground e w).1.disk (errSink (writeLogBackground e w).1) =
          some ((if (writeLogBackground e w).2.errSplit = true then ""
            else content w.disk (errSink w)) ++ Fprintf0 (logInfo r))) ∧
      (r.level < LogLevel.ERROR →
        errSink (writeLogBackground e w).1 = errSink w ∧
        (writeLogBackground e w).1.disk (errSink w) = w.disk (errSink w) ∧
        (writeLogBackground e w).1.disk (errPath w.fl) = w.disk (errPath w.fl)) ∧
      (PlainName w.fl.fileName →
        mainSink w = mainPath w.fl ∧ mainSink (writeLogBackground e w).1 = mainPath w.fl ∧
        errSink w = errPath w.fl ∧ errSink (writeLogBackground e w).1 = errPath w.fl) := by
  obtain ⟨hhead, halive⟩ := step_popped e w r hpop
  obtain ⟨nM, nE, hS⟩ := (reachable_inv w hw).1 halive
  obtain ⟨-, -, C, -, -, -, G, H⟩ := step_core e w nM nE halive hS
  obtain ⟨o1, -, -, o4, -, o6, -⟩ := H hok
  have hS2 := step_sinks e w nM nE halive hS o1
  obtain ⟨-, s2, s3, -, -, -⟩ := step_static e w
  have m1 := mainSink_eq w nM nE hS
  have e1 := errSink_eq w nM nE hS
  have m2 := mainSink_eq _ _ _ hS2
  have e2 := errSink_eq _ _ _ hS2
  rw [s2] at m2 e2
  rw [hhead] at o4 o6
  simp only at o4 o6
  refine ⟨?_, fun hl => ?_, fun hl => ?_, fun hp => ?_⟩
  · rw [m2, m1]; exact o4
  · rw [e2, e1, o6, if_pos hl]
  · have hn : ¬ (LogLevel.ERROR ≤ r.level) := Nat.not_le.mpr hl
    obtain ⟨g1, g2, g3⟩ := G r hpop hn
    refine ⟨?_, ?_, step_err_untouched e w nM nE halive hS r hpop hn⟩
    · rw [e2, e1, g1, nextName_false]
    · rw [e1]; exact g3
  · have ho := reachable_opened w hw hp halive
    have ho2 := step_opened e w hp halive ho o1
    have hm := mainSink_of_opened _ ho2
    have he := errSink_of_opened _ ho2
    rw [mainPath_step] at hm
    simp only [errPath, s2, s3] at he
    exact ⟨mainSink_of_opened w ho, hm, errSink_of_opened w ho, he⟩

/-- Witness for C4: `Fatal("boom")` leaves the same line in the main and in
the error file of a logger of file name `app.log`; and on a logger of file
name `sub/app.log` whose main handle a rotation has left open on
`logs/app.log`, the iteration leaves the same line in that file and in the
error file. -/
theorem error_file_mirrors_main_file_witness :
    (NoRotationFails (okIter exTime)
        (Fatal (exWorld initialMaxSize .DEBUG 1000) "boom" exTime exSite) ∧
      mainSink (writeLogBackground (okIter exTime)
          (Fatal (exWorld initialMaxSize .DEBUG 1000) "boom" exTime exSite)).1 = exMain ∧
      errSink (writeLogBackground (okIter exTime)
          (Fatal (exWorld initialMaxSize .DEBUG 1000) "boom" exTime exSite)).1 = exErr ∧
      (writeLogBackground (okIter exTime)
          (Fatal (exWorld initialMaxSize .DEBUG 1000) "boom" exTime exSite)).1.disk
          (mainSink (writeLogBackground (okIter exTime)
            (Fatal (exWorld initialMaxSize .DEBUG 1000) "boom" exTime exSite)).1) =
        some "[2021-01-18 20:23:05] [FATAL] [main:main.go:12]boom\n" ∧
      (writeLogBackground (okIter exTime)
          (Fatal (exWorld initialMaxSize .DEBUG 1000) "boom" exTime exSite)).1.disk
          (errSink (writeLogBackground (okIter exTime)
            (Fatal (exWorld initialMaxSize .DEBUG 1000) "boom" exTime exSite)).1) =
        some "[2021-01-18 20:23:05] [FATAL] [main:main.go:12]boom\n") ∧
    (NoRotationFails (okIter exTimeAfter) subMoved ∧
      (writeLogBackground (okIter exTimeAfter) subMoved).2.mainSplit = true ∧
      mainSink subMoved = otherFile ∧
      mainSink (writeLogBackground (okIter exTimeAfter) subMoved).1 = otherFile ∧
      errSink (writeLogBackground (okIter exTimeAfter) subMoved).1 = subErr ∧
      (writeLogBackground (okIter exTimeAfter) subMoved).1.disk
          (mainSink (writeLogBackground (okIter exTimeAfter) subMoved).1) =
        some "[2021-01-18 20:23:06] [FATAL] [main:main.go:12]boom\n" ∧
      (writeLogBackground (okIter exTimeAfter) subMoved).1.disk
          (errSink (writeLogBackground (okIter exTimeAfter) subMoved).1) =
        some "[2021-01-18 20:23:06] [FATAL] [main:main.go:12]boom\n") :=
  have h := error_file_mirrors_main_file (okIter exTime)
    (Fatal (exWorld initialMaxSize .DEBUG 1000) "boom" exTime exSite)
    (Reachable.log _ _ _ _ _
      (Reachable.init initialMaxSize ⟨true, true⟩ exDisk "DEBUG" "logs" "app.log" 1000 _ rfl))
    (by decide) (Call.mk .FATAL "boom" exTime exSite).record (by decide)
  have k := error_file_mirrors_main_file (okIter exTimeAfter) subMoved
    (Reachable.log (writeLogBackground (okIter exTimeNext) subFull).1 .FATAL "boom" exTimeNext
      exSite (Reachable.step (okIter exTimeNext) subFull
        (Reachable.step (okIter exTime) (logAll subCalls (subWorld 10))
          (logAll_reachable subCalls (subWorld 10)
            (Reachable.init initialMaxSize ⟨true, true⟩ subDisk "INFO" "logs" "sub/app.log" 10
              (subWorld 10) rfl)))))
    (by decide) (Call.mk .FATAL "boom" exTimeNext exSite).record (by decide)
  ⟨⟨by decide, by decide, by decide, h.1.trans (by decide),
      (h.2.1 (by decide)).trans (by decide)⟩,
    ⟨by decide, by decide, by decide, by decide, by decide, k.1.trans (by decide),
      (k.2.1 (by decide)).trans (by decide)⟩⟩

/-- C5, as stated, fails: for `Info("hello")` the background loop writes the
message right after the closing bracket of the caller block, with no space in
between, so the line is not the one the claim describes.  (And a message with
a percent sign is rewritten on its way to the file, because the finished line
is passed to `fmt.Fprintf` as its format.) -/
theorem line_format_counterexample :
    (writeLogBackground (okIter exTime)
        (Info (exWorld initialMaxSize .INFO 1000) "hello" exTime exSite)).2.popped =
        some (Call.mk .INFO "hello" exTime exSite).record ∧
      (writeLogBackground (okIter exTime)
        (Info (exWorld initialMaxSize .INFO 1000) "hello" exTime exSite)).1.disk exMain =
        some "[2021-01-18 20:23:05] [INFO] [main:main.go:12]hello\n" ∧
      specLine (Call.mk .INFO "hello" exTime exSite).record =
        "[2021-01-18 20:23:05] [INFO] [main:main.go:12] hello\n" ∧
      (writeLogBackground (okIter exTime)
        (Info (exWorld initialMaxSize .INFO 1000) "hello" exTime exSite)).1.disk exMain ≠
        some (specLine (Call.mk .INFO "hello" exTime exSite).record) ∧
      (writeLogBackground (okIter exTime)
        (Info (exWorld initialMaxSize .INFO 1000) "50% off" exTime exSite)).1.disk exMain =
        some "[2021-01-18 20:23:05] [INFO] [main:main.go:12]50%!o(MISSING)ff\n" := by
  decide

/-- C5, amended: when an iteration of the background loop takes a record whose
text holds no percent sign, what it writes to the file the main handle is open
on is the timestamp in brackets, a space, the level name in brackets, a space,
the caller block `[function:file:line]`, then the message directly after the
closing bracket, then one newline: the file ends in that line; if no rotation
fails in the iteration the file holds what it held before (nothing after a
rotation) followed by exactly that line, and so does the file the error handle
is open on for a record of level ERROR or higher. -/
theorem line_format (e : IterEnv) (w : World) (hw : Reachable w) (r : logMsg)
    (hpop : (writeLogBackground e w).2.popped = some r)
    (h : '%' ∉ (logInfo r).data) :
    (∃ pre, (writeLogBackground e w).1.disk (mainSink (writeLogBackground e w).1) =
        some (pre ++ ("[" ++ r.timestamp ++ "] [" ++ getLogString r.level ++ "] [" ++
          r.funcName ++ ":" ++ r.fileName ++ ":" ++ toString r.line ++ "]" ++ r.msg ++ "\n"))) ∧
      (NoRotationFails e w →
        (writeLogBackground e w).1.disk (mainSink (writeLogBackground e w).1) =
          some ((if (writeLogBackground e w).2.mainSplit = true then ""
              else content w.disk (mainSink w)) ++
            ("[" ++ r.timestamp ++ "] [" ++ getLogString r.level ++ "] [" ++ r.funcName ++ ":" ++
              r.fileName ++ ":" ++ toString r.line ++ "]" ++ r.msg ++ "\n"))) ∧
      (NoRotationFails e w → LogLevel.ERROR ≤ r.level →
        (writeLogBackground e w).1.disk (errSink (writeLogBackground e w).1) =
          some ((if (writeLogBackground e w).2.errSplit = true then ""
              else content w.disk (errSink w)) ++
            ("[" ++ r.timestamp ++ "] [" ++ getLogString r.level ++ "] [" ++ r.funcName ++ ":" ++
              r.fileName ++ ":" ++ toString r.line ++ "]" ++ r.msg ++ "\n"))) := by
  have h0 : Fprintf0 (logInfo r) = "[" ++ r.timestamp ++ "] [" ++ getLogString r.level ++ "] [" ++
      r.funcName ++ ":" ++ r.fileName ++ ":" ++ toString r.line ++ "]" ++ r.msg ++ "\n" :=
    Fprintf0_of_no_percent _ h
  obtain ⟨hhead, halive⟩ := step_popped e w r hpop
  obtain ⟨nM, nE, hS⟩ := (reachable_inv w hw).1 halive
  obtain ⟨-, -, -, -, E, -, -, H⟩ := step_core e w nM nE halive hS
  obtain ⟨-, s2, -, -, -, -⟩ := step_static e w
  obtain ⟨-, p2, pre, p3⟩ := E r hpop
  have m1 := mainSink_eq w nM nE hS
  have e1 := errSink_eq w nM nE hS
  have m2 : mainSink (writeLogBackground e w).1 =
      ⟨w.fl.filePath, nextName (writeLogBackground e w).2.mainSplit nM⟩ := by
    simp only [mainSink, p2]
  refine ⟨⟨pre, ?_⟩, fun hok => ?_, fun hok hl => ?_⟩
  · rw [m2, p3, h0]
  · obtain ⟨-, -, -, o4, -, -, -⟩ := H hok
    rw [hhead] at o4
    simp only at o4
    rw [m2, m1, o4, h0]
  · obtain ⟨o1, -, -, -, -, o6, -⟩ := H hok
    have hS2 := step_sinks e w nM nE halive hS o1
    have e2 := errSink_eq _ _ _ hS2
    rw [s2] at e2
    rw [hhead] at o6
    simp only at o6
    rw [e2, e1, o6, if_pos hl, h0]

/-- Witness for C5 amended: the iteration that takes the record of
`Info("hello")` leaves its line in the empty main file. -/
theorem line_format_witness :
    (writeLogBackground (okIter exTime)
        (Info (exWorld initialMaxSize .INFO 1000) "hello" exTime exSite)).1.disk
        (mainSink (writeLogBackground (okIter exTime)
          (Info (exWorld initialMaxSize .INFO 1000) "hello" exTime exSite)).1) =
      some "[2021-01-18 20:23:05] [INFO] [main:main.go:12]hello\n" :=
  ((line_format (okIter exTime) (Info (exWorld initialMaxSize .INFO 1000) "hello" exTime exSite)
    (Reachable.log _ _ _ _ _
      (Reachable.init initialMaxSize ⟨true, true⟩ exDisk "INFO" "logs" "app.log" 1000 _ rfl))
    (Call.mk .INFO "hello" exTime exSite).record (by decide) (by decide)).2.1
    (by decide)).trans (by decide)

/-- C6, as stated, fails: in the scenario of the claim with the call site
`main`, `main.go`, line 12, the first line is 97 bytes long, so the second
iteration does not rotate: after both iterations the original path holds both
lines and there is no backup.  Where the first line is 109 bytes long, an
iteration whose size check cannot read the size does not rotate either.  And
for a logger whose file name has a directory part (`sub/app.log`, next to an
unrelated `logs/app.log`) an iteration that starts with the main file at the
maximum size and in which no rotation fails makes no backup of the main file
and leaves at the original path what was there: it renames the unrelated file
and writes its line where that file was. -/
theorem rotation_scenario_counterexample :
    (drain [okIter exTime] (Info (Info (exWorld initialMaxSize .INFO 100) x50 exTime exSite)
        x50 exTime exSite)).disk exMain =
        some ("[2021-01-18 20:23:05] [INFO] [main:main.go:12]" ++ x50 ++ "\n") ∧
      fileSize (drain [okIter exTime] (Info (Info (exWorld initialMaxSize .INFO 100) x50 exTime exSite)
        x50 exTime exSite)).disk exMain = 97 ∧
      (scenario exSite).disk exMain =
        some ("[2021-01-18 20:23:05] [INFO] [main:main.go:12]" ++ x50 ++ "\n" ++
          "[2021-01-18 20:23:05] [INFO] [main:main.go:12]" ++ x50 ++ "\n") ∧
      (scenario exSite).disk exBackup = none ∧
      ¬ ((scenario exSite).disk exBackup =
          some ("[2021-01-18 20:23:05] [INFO] [main:main.go:12]" ++ x50 ++ "\n") ∧
        (scenario exSite).disk exMain =
          some ("[2021-01-18 20:23:05] [INFO] [main:main.go:12]" ++ x50 ++ "\n")) ∧
      fileSize (drain [okIter exTime] (Info (Info (exWorld initialMaxSize .INFO 100) x50 exTime exLongSite)
        x50 exTime exLongSite)).disk exMain = 109 ∧
      (writeLogBackground (statFailsIter exTimeLater)
        (drain [okIter exTime] (Info (Info (exWorld initialMaxSize .INFO 100) x50 exTime exLongSite)
          x50 exTime exLongSite))).2.mainSplit = false ∧
      subFull.disk subMain = some (exLine "first") ∧
      subFull.fl.maxFileSize ≤ fileSize subFull.disk (mainPath subFull.fl) ∧
      NoRotationFails (okIter exTimeNext) subFull ∧
      (writeLogBackground (okIter exTimeNext) subFull).2.mainSplit = true ∧
      (writeLogBackground (okIter exTimeNext) subFull).1.disk
        (newLogName subFull.fl subFull.fl.fileName exTimeNext) = none ∧
      (writeLogBackground (okIter exTimeNext) subFull).1.disk subMain =
        some (exLine "first") ∧
      (writeLogBackground (okIter exTimeNext) subFull).1.disk
        (newLogName subFull.fl "app.log" exTimeNext) = some "unrelated\n" ∧
      (writeLogBackground (okIter exTimeNext) subFull).1.disk otherFile =
        some (exLine "second") := by
  decide

/-- C6, amended, for a logger whose file name has no directory part: (1) when
an iteration starts with the main file at or above the maximum size, its size
check can read the size and no rotation fails, the main file is rotated before
the write: the backup holds exactly what the main file held before the
iteration, and right after the iteration the original path holds only the line
written in this iteration (nothing if the queue was empty); (2) with a maximum
size of 100, a new main file and two `Info` calls, if the first line written
is at least 100 bytes long, then right after two iterations, the second of
which can read the size and rotates without failure, the backup holds the
first line and the original path holds only the second. -/
theorem rotation_before_write :
    (∀ (e : IterEnv) (w : World), Reachable w → w.alive = true → PlainName w.fl.fileName →
      e.mainStatOk = true → NoRotationFails e w →
      w.fl.maxFileSize ≤ fileSize w.disk (mainPath w.fl) →
      (writeLogBackground e w).2.mainSplit = true ∧
        (writeLogBackground e w).1.disk (newLogName w.fl w.fl.fileName e.mainSplit.now) =
          w.disk (mainPath w.fl) ∧
        (writeLogBackground e w).1.disk (mainPath w.fl) =
          some (match w.fl.logChan.buf.head? with
            | none => ""
            | some r => Fprintf0 (logInfo r))) ∧
    (∀ (MaxSize : Nat) (d : Disk) (fp fn : String) (w0 : World) (msg1 msg2 : String)
      (t1 t2 : Time) (c1 c2 : CallSite) (e1 e2 : IterEnv),
      2 ≤ MaxSize → PlainName fn → d ⟨fp, fn⟩ = none →
      NewFileLogger MaxSize ⟨true, true⟩ d "INFO" fp fn 100 = .ok w0 →
      e2.mainStatOk = true → e2.mainSplit.allOk →
      100 ≤ (Fprintf0 (logInfo (Call.mk .INFO msg1 t1 c1).record)).utf8ByteSize →
      (drain [e1, e2] (Info (Info w0 msg1 t1 c1) msg2 t2 c2)).disk
          ⟨fp, fn ++ ".bak" ++ formatStamp e2.mainSplit.now⟩ =
          some (Fprintf0 (logInfo (Call.mk .INFO msg1 t1 c1).record)) ∧
        (drain [e1, e2] (Info (Info w0 msg1 t1 c1) msg2 t2 c2)).disk ⟨fp, fn⟩ =
          some (Fprintf0 (logInfo (Call.mk .INFO msg2 t2 c2).record))) := by
  constructor
  · intro e w hw halive hp hstat hok hsize
    obtain ⟨S1, -, -, -, S5, S6, -, -⟩ :=
      step_ok e w hp halive (reachable_opened w hw hp halive) hok
    have hs : (writeLogBackground e w).2.mainSplit = true := by
      rw [S1, hstat]; simpa using hsize
    refine ⟨hs, S6 hs, ?_⟩
    rw [S5, if_pos hs, String.empty_append] <;> cases w.fl.logChan.buf.head? <;> rfl
  · intro MaxSize d fp fn w0 msg1 msg2 t1 t2 c1 c2 e1 e2 hcap hp hd hnew hstat hall hlong
    obtain ⟨i1, i2, i3, i4, i5, i6, i7, i8⟩ := init_fresh MaxSize d fp fn 100 w0 hd hnew
    have hw0 : Reachable w0 := Reachable.init _ _ _ _ _ _ _ _ hnew
    -- the two calls
    have hA : Info (Info w0 msg1 t1 c1) msg2 t2 c2 =
        logAll [Call.mk .INFO msg1 t1 c1, Call.mk .INFO msg2 t2 c2] w0 := rfl
    rw [hA]
    simp only [drain]
    obtain ⟨a1, a2, a3, a4, a5, a6⟩ :=
      logAll_spec [Call.mk .INFO msg1 t1 c1, Call.mk .INFO msg2 t2 c2] w0
        (by intro c hc; rw [i2]; simp at hc; rcases hc with rfl | rfl <;> exact Nat.le_refl _)
        (by rw [i6, i7]; simpa using hcap)
    have hwA := logAll_reachable [Call.mk .INFO msg1 t1 c1, Call.mk .INFO msg2 t2 c2] w0 hw0
    generalize logAll [Call.mk .INFO msg1 t1 c1, Call.mk .INFO msg2 t2 c2] w0 = wA
      at a1 a2 a3 a4 a5 a6 hwA ⊢
    rw [i6] at a1
    simp only [List.nil_append, List.map_cons, List.map_nil] at a1
    have aliveA : wA.alive = true := by rw [a3, i1]
    have hpA : PlainName wA.fl.fileName := by rw [a5, i4]; exact hp
    have hoA : Opened wA := reachable_opened wA hwA hpA aliveA
    have hPA : mainPath wA.fl = ⟨fp, fn⟩ := by simp [mainPath, a4, a5, i3, i4]
    have hdA : wA.disk (mainPath wA.fl) = some "" := by rw [hPA, a2, i8]
    -- first iteration: no rotation, the first line is written
    have hinfo : ∀ (m : String) (t : Time) (c : CallSite),
        ¬ (LogLevel.ERROR ≤ (Call.mk .INFO m t c).record.level) := by
      intro m t c; show ¬ ((4 : Nat) ≤ 2); decide
    have hE1 : (writeLogBackground e1 wA).2.errSplit = false :=
      no_err_rotation e1 wA _ _ aliveA (sinks_of_opened wA hoA) (by
        intro r hr; rw [a1] at hr; simp at hr; subst hr; exact hinfo _ _ _)
    have hM1 : (writeLogBackground e1 wA).2.mainSplit = false := by
      cases hs : (writeLogBackground e1 wA).2.mainSplit with
      | false => rfl
      | true =>
        have := (step_events e1 wA _ _ aliveA (sinks_of_opened wA hoA)).1 hs
        rw [a6, i5] at this
        have h0 : ("" : String).utf8ByteSize = 0 := rfl
        simp [fileSize, content, hdA, h0] at this
    have hok1 : NoRotationFails e1 wA :=
      ⟨main_ok_of_no_split e1 wA hM1, err_ok_of_no_split e1 wA hE1⟩
    obtain ⟨-, S2, S3, -, S5, -, -, -⟩ := step_ok e1 wA hpA aliveA hoA hok1
    obtain ⟨-, s2, s3, s4, -, -⟩ := step_static e1 wA
    rw [a1] at S3 S5
    simp only [List.tail_cons, List.head?_cons, hM1, Bool.false_eq_true, if_false,
      content_of_eq_some hdA] at S3 S5
    have hwB : Reachable (writeLogBackground e1 wA).1 := Reachable.step e1 wA hwA
    generalize (writeLogBackground e1 wA).1 = wB at S2 S3 S5 s2 s3 s4 hwB ⊢
    have hpB : PlainName wB.fl.fileName := by rw [s3]; exact hpA
    have hoB : Opened wB := reachable_opened wB hwB hpB S2
    have hPB : mainPath wB.fl = mainPath wA.fl := by simp [mainPath, s2, s3]
    -- second iteration: the main file has reached 100 bytes
    have hE2 : (writeLogBackground e2 wB).2.errSplit = false :=
      no_err_rotation e2 wB _ _ S2 (sinks_of_opened wB hoB) (by
        intro r hr; rw [S3] at hr; simp at hr; subst hr; exact hinfo _ _ _)
    have hok2 : NoRotationFails e2 wB :=
      ⟨main_ok_of_allOk e2 wB hpB S2 hoB hall, err_ok_of_no_split e2 wB hE2⟩
    obtain ⟨T1, -, -, -, T5, T6, -, -⟩ := step_ok e2 wB hpB S2 hoB hok2
    have hsz : wB.fl.maxFileSize ≤ fileSize wB.disk (mainPath wB.fl) := by
      rw [s4, a6, i5, hPB]
      simp only [fileSize, content, S5, Option.getD_some, String.empty_append]
      exact_mod_cast hlong
    have hM2 : (writeLogBackground e2 wB).2.mainSplit = true := by
      rw [T1, hstat]; simpa using hsz
    have hbk := T6 hM2
    rw [S3] at T5
    simp only [List.head?_cons, hM2, if_true, String.empty_append] at T5
    rw [hPB, S5, String.empty_append] at hbk
    rw [hPB, hPA] at T5
    simp only [newLogName, s2, s3, a4, a5, i3, i4] at hbk
    exact ⟨hbk, T5⟩

/-- Witness for C6 amended: the scenario with a call site whose names make
the line 109 bytes long; the backup holds the first line and the original path
only the second. -/
theorem rotation_before_write_witness :
    (scenario exLongSite).disk ⟨"logs", "app.log" ++ ".bak" ++ formatStamp exTimeLater⟩ =
        some (Fprintf0 (logInfo (Call.mk .INFO x50 exTime exLongSite).record)) ∧
      (scenario exLongSite).disk ⟨"logs", "app.log"⟩ =
        some (Fprintf0 (logInfo (Call.mk .INFO x50 exTime exLongSite).record)) ∧
      Fprintf0 (logInfo (Call.mk .INFO x50 exTime exLongSite).record) =
        "[2021-01-18 20:23:05] [INFO] [handleRequest:server.go:120]" ++ x50 ++ "\n" :=
  have h := rotation_before_write.2 initialMaxSize exDisk "logs" "app.log"
    (exWorld initialMaxSize .INFO 100) x50 x50
    exTime exTime exLongSite exLongSite (okIter exTime) (okIter exTimeLater) (by decide)
    (by decide) rfl rfl rfl (by decide) (by decide)
  ⟨h.1, h.2, by decide⟩

/-- C7 on the code: when the open of the main file or of the error file fails
at construction, `NewFileLogger` still returns a logger; its handles are nil
and no background goroutine runs. -/
theorem NewFileLogger_returns_logger_when_open_fails :
    (∃ w, NewFileLogger initialMaxSize ⟨false, true⟩ exDisk "INFO" "logs" "app.log" 100 = .ok w ∧
        w.fl.fileObj = none ∧ w.fl.errFileObj = none ∧ w.alive = false) ∧
      (∃ w, NewFileLogger initialMaxSize ⟨true, false⟩ exDisk "INFO" "logs" "app.log" 100 = .ok w ∧
        w.fl.fileObj = none ∧ w.fl.errFileObj = none ∧ w.alive = false) :=
  ⟨⟨_, rfl, rfl, rfl, rfl⟩, ⟨_, rfl, rfl, rfl, rfl⟩⟩

/-- C8 on the code: the main file has reached the maximum size and the rename
of its rotation fails while the reopen succeeds; the iteration goes on and
appends the next line to the main file, and no backup exists. -/
theorem write_goes_on_after_failed_rename :
    (writeLogBackground (okIter exTime) threeCalls).1.disk exMain = some (exLine "first") ∧
      (writeLogBackground (renameFailsIter exTimeLater)
        (writeLogBackground (okIter exTime) threeCalls).1).2.mainSplit = true ∧
      (writeLogBackground (renameFailsIter exTimeLater)
        (writeLogBackground (okIter exTime) threeCalls).1).1.disk exBackup = none ∧
      (writeLogBackground (renameFailsIter exTimeLater)
        (writeLogBackground (okIter exTime) threeCalls).1).1.disk exMain =
        some (exLine "first" ++ exLine "second") ∧
      (drain [okIter exTime, renameFailsIter exTimeLater, okIter exTimeLater]
        threeCalls).alive = true := by
  decide

/-- C9 on the code: the stamp of a backup name ends in the characters `000`
whatever the millisecond of the clock is; two rotations of the main file at
20:23:05.100 and 20:23:05.900 give the same backup name, and the second
rotation overwrites the backup the first one made. -/
theorem backup_stamp_has_no_milliseconds :
    exTime.millisecond = 100 ∧ exTimeLater.millisecond = 900 ∧
      formatStamp exTime = "20210118202305000" ∧
      formatStamp exTimeLater = "20210118202305000" ∧
      newLogName threeCalls.fl "app.log" exTime = exBackup ∧
      newLogName threeCalls.fl "app.log" exTimeLater = exBackup ∧
      (drain [okIter exTime, okIter exTime] threeCalls).disk exBackup =
        some (exLine "first") ∧
      (drain [okIter exTime, okIter exTime, okIter exTimeLater] threeCalls).disk exBackup =
        some (exLine "second") := by
  decide

end mylogger
